import Mathlib

/-!
Verification development for the `germi` shell-style string-interpolation
engine (scanner + recursive resolver).

The embedding works over `List Char` with character indices playing the role
of the Rust byte offsets (the two coincide on ASCII input, and every position
computation in the source advances by `len_utf8`, which is `1` per character
in the character-index model).  Strings are `List Char`; the Rust
`Cow<'_, str>` is the two-constructor type `Cow` below, so the
borrowed/owned (zero-copy) distinction stays observable.  Fallible code
returns `Except Error _`.  Loops of the source are rendered as fuel-indexed
structural recursions; every public entry point supplies fuel
`length + 1 - cursor`, which the progress lemmas below show is always
sufficient, so the fuel-exhausted branches are unreachable.
-/

namespace Germi

/-! ## Data model (src/scanner.rs lines 4-19, src/error.rs, src/config.rs) -/

/-- Model of `Token` from src/scanner.rs lines 4-19. -/
inductive Token where
  | Literal (text : List Char)
  | Variable (name : List Char) (dflt : Option (List Char)) (strict : Bool) (conditional : Bool)
  | Command (text : List Char)
  | BacktickCommand (text : List Char)
deriving DecidableEq

/-- Model of `Error` from src/error.rs lines 3-19. -/
inductive Error where
  | RecursiveLookup (ctx : List Char)
  | MissingVar (name : List Char)
  | SyntaxError (msg : String) (pos : Nat)
  | UnclosedBrace (pos : Nat)
  | UnclosedQuote (pos : Nat)
  | CommandError (msg : String)
  | IoError (msg : String)
deriving DecidableEq

/-- Model of `FeatureConfig` from src/config.rs lines 4-21.  The first field is named
`variables` in the source; that identifier is reserved in Lean, so it is
`vars` here. -/
structure FeatureConfig where
  vars : Bool
  defaults : Bool
  alternates : Bool
  conditionals : Bool
  escapes : Bool
  commands : Bool
  backtick_commands : Bool
deriving DecidableEq

/-- Model of `Config` from src/config.rs lines 37-46. -/
structure Config where
  max_depth : Nat
  strict_unsets : Bool
  features : FeatureConfig
deriving DecidableEq

/-- Model of `FeatureConfig::default` (src/config.rs lines 23-35): all features on. -/
def defaultFeatureConfig : FeatureConfig := ⟨true, true, true, true, true, true, true⟩

/-- Model of `Config::default` (src/config.rs lines 48-56): `max_depth = 10`. -/
def defaultConfig : Config := ⟨10, false, defaultFeatureConfig⟩

/-- Model of `Cow<'_, str>` as it is observable through the public API. -/
inductive Cow where
  | Borrowed (s : List Char)
  | Owned (s : List Char)
deriving DecidableEq

/-- The string carried by a `Cow` (`as_ref`). -/
def Cow.val : Cow → List Char
  | .Borrowed s => s
  | .Owned s => s

deriving instance DecidableEq for Except

/-- The `VariableProvider` capability (src/context.rs lines 3-7): `get_value`. -/
abbrev Provider : Type := List Char → Option (List Char)

/-! ## Character helpers

The character classes the scanner dispatches on.  `quoteChar` and
`backtickChar` are written by code point to keep the source free of literal
quote/backtick characters. -/

def backslashChar : Char := '\\'

def quoteChar : Char := Char.ofNat 39

def backtickChar : Char := Char.ofNat 96

/-- The "special" set searched for by the memchr calls in
`Scanner::scan_next` (src/scanner.rs lines 44-51). -/
def isSpecialChar (c : Char) : Bool :=
  c = '$' || c = backslashChar || c = quoteChar || c = backtickChar

/-- Membership of a code point in a list of inclusive code-point ranges
sorted in ascending order; the early exit on `c < lo` is sound because the
tables below are sorted and pairwise disjoint. -/
def inSortedRanges (c : Nat) : List (Nat × Nat) → Bool
  | [] => false
  | (lo, hi) :: rest =>
    if c < lo then false
    else if c ≤ hi then true
    else inSortedRanges c rest

set_option maxRecDepth 8192

/-- The inclusive ranges of the Unicode `Alphabetic` derived property
(Unicode 14.0, DerivedCoreProperties.txt) — the character class consulted
by Rust `char::is_alphabetic`.  Rust toolchains track nearby Unicode
versions, which differ from 14.0 only on code points that were unassigned
in 14.0.  722 ranges, 133396 code points, sorted by code point. -/
def alphabeticRanges : List (Nat × Nat) :=
  [(65, 90), (97, 122), (170, 170), (181, 181), (186, 186), (192, 214),
   (216, 246), (248, 705), (710, 721), (736, 740), (748, 748), (750, 750),
   (837, 837), (880, 884), (886, 887), (890, 893), (895, 895), (902, 902),
   (904, 906), (908, 908), (910, 929), (931, 1013), (1015, 1153), (1162, 1327),
   (1329, 1366), (1369, 1369), (1376, 1416), (1456, 1469), (1471, 1471), (1473, 1474),
   (1476, 1477), (1479, 1479), (1488, 1514), (1519, 1522), (1552, 1562), (1568, 1623),
   (1625, 1631), (1646, 1747), (1749, 1756), (1761, 1768), (1773, 1775), (1786, 1788),
   (1791, 1791), (1808, 1855), (1869, 1969), (1994, 2026), (2036, 2037), (2042, 2042),
   (2048, 2071), (2074, 2092), (2112, 2136), (2144, 2154), (2160, 2183), (2185, 2190),
   (2208, 2249), (2260, 2271), (2275, 2281), (2288, 2363), (2365, 2380), (2382, 2384),
   (2389, 2403), (2417, 2435), (2437, 2444), (2447, 2448), (2451, 2472), (2474, 2480),
   (2482, 2482), (2486, 2489), (2493, 2500), (2503, 2504), (2507, 2508), (2510, 2510),
   (2519, 2519), (2524, 2525), (2527, 2531), (2544, 2545), (2556, 2556), (2561, 2563),
   (2565, 2570), (2575, 2576), (2579, 2600), (2602, 2608), (2610, 2611), (2613, 2614),
   (2616, 2617), (2622, 2626), (2631, 2632), (2635, 2636), (2641, 2641), (2649, 2652),
   (2654, 2654), (2672, 2677), (2689, 2691), (2693, 2701), (2703, 2705), (2707, 2728),
   (2730, 2736), (2738, 2739), (2741, 2745), (2749, 2757), (2759, 2761), (2763, 2764),
   (2768, 2768), (2784, 2787), (2809, 2812), (2817, 2819), (2821, 2828), (2831, 2832),
   (2835, 2856), (2858, 2864), (2866, 2867), (2869, 2873), (2877, 2884), (2887, 2888),
   (2891, 2892), (2902, 2903), (2908, 2909), (2911, 2915), (2929, 2929), (2946, 2947),
   (2949, 2954), (2958, 2960), (2962, 2965), (2969, 2970), (2972, 2972), (2974, 2975),
   (2979, 2980), (2984, 2986), (2990, 3001), (3006, 3010), (3014, 3016), (3018, 3020),
   (3024, 3024), (3031, 3031), (3072, 3075), (3077, 3084), (3086, 3088), (3090, 3112),
   (3114, 3129), (3133, 3140), (3142, 3144), (3146, 3148), (3157, 3158), (3160, 3162),
   (3165, 3165), (3168, 3171), (3200, 3203), (3205, 3212), (3214, 3216), (3218, 3240),
   (3242, 3251), (3253, 3257), (3261, 3268), (3270, 3272), (3274, 3276), (3285, 3286),
   (3293, 3294), (3296, 3299), (3313, 3314), (3328, 3340), (3342, 3344), (3346, 3386),
   (3389, 3396), (3398, 3400), (3402, 3404), (3406, 3406), (3412, 3415), (3423, 3427),
   (3450, 3455), (3457, 3459), (3461, 3478), (3482, 3505), (3507, 3515), (3517, 3517),
   (3520, 3526), (3535, 3540), (3542, 3542), (3544, 3551), (3570, 3571), (3585, 3642),
   (3648, 3654), (3661, 3661), (3713, 3714), (3716, 3716), (3718, 3722), (3724, 3747),
   (3749, 3749), (3751, 3769), (3771, 3773), (3776, 3780), (3782, 3782), (3789, 3789),
   (3804, 3807), (3840, 3840), (3904, 3911), (3913, 3948), (3953, 3969), (3976, 3991),
   (3993, 4028), (4096, 4150), (4152, 4152), (4155, 4159), (4176, 4239), (4250, 4253),
   (4256, 4293), (4295, 4295), (4301, 4301), (4304, 4346), (4348, 4680), (4682, 4685),
   (4688, 4694), (4696, 4696), (4698, 4701), (4704, 4744), (4746, 4749), (4752, 4784),
   (4786, 4789), (4792, 4798), (4800, 4800), (4802, 4805), (4808, 4822), (4824, 4880),
   (4882, 4885), (4888, 4954), (4992, 5007), (5024, 5109), (5112, 5117), (5121, 5740),
   (5743, 5759), (5761, 5786), (5792, 5866), (5870, 5880), (5888, 5907), (5919, 5939),
   (5952, 5971), (5984, 5996), (5998, 6000), (6002, 6003), (6016, 6067), (6070, 6088),
   (6103, 6103), (6108, 6108), (6176, 6264), (6272, 6314), (6320, 6389), (6400, 6430),
   (6432, 6443), (6448, 6456), (6480, 6509), (6512, 6516), (6528, 6571), (6576, 6601),
   (6656, 6683), (6688, 6750), (6753, 6772), (6823, 6823), (6847, 6848), (6860, 6862),
   (6912, 6963), (6965, 6979), (6981, 6988), (7040, 7081), (7084, 7087), (7098, 7141),
   (7143, 7153), (7168, 7222), (7245, 7247), (7258, 7293), (7296, 7304), (7312, 7354),
   (7357, 7359), (7401, 7404), (7406, 7411), (7413, 7414), (7418, 7418), (7424, 7615),
   (7655, 7668), (7680, 7957), (7960, 7965), (7968, 8005), (8008, 8013), (8016, 8023),
   (8025, 8025), (8027, 8027), (8029, 8029), (8031, 8061), (8064, 8116), (8118, 8124),
   (8126, 8126), (8130, 8132), (8134, 8140), (8144, 8147), (8150, 8155), (8160, 8172),
   (8178, 8180), (8182, 8188), (8305, 8305), (8319, 8319), (8336, 8348), (8450, 8450),
   (8455, 8455), (8458, 8467), (8469, 8469), (8473, 8477), (8484, 8484), (8486, 8486),
   (8488, 8488), (8490, 8493), (8495, 8505), (8508, 8511), (8517, 8521), (8526, 8526),
   (8544, 8584), (9398, 9449), (11264, 11492), (11499, 11502), (11506, 11507), (11520, 11557),
   (11559, 11559), (11565, 11565), (11568, 11623), (11631, 11631), (11648, 11670), (11680, 11686),
   (11688, 11694), (11696, 11702), (11704, 11710), (11712, 11718), (11720, 11726), (11728, 11734),
   (11736, 11742), (11744, 11775), (11823, 11823), (12293, 12295), (12321, 12329), (12337, 12341),
   (12344, 12348), (12353, 12438), (12445, 12447), (12449, 12538), (12540, 12543), (12549, 12591),
   (12593, 12686), (12704, 12735), (12784, 12799), (13312, 19903), (19968, 42124), (42192, 42237),
   (42240, 42508), (42512, 42527), (42538, 42539), (42560, 42606), (42612, 42619), (42623, 42735),
   (42775, 42783), (42786, 42888), (42891, 42954), (42960, 42961), (42963, 42963), (42965, 42969),
   (42994, 43013), (43015, 43047), (43072, 43123), (43136, 43203), (43205, 43205), (43250, 43255),
   (43259, 43259), (43261, 43263), (43274, 43306), (43312, 43346), (43360, 43388), (43392, 43442),
   (43444, 43455), (43471, 43471), (43488, 43503), (43514, 43518), (43520, 43574), (43584, 43597),
   (43616, 43638), (43642, 43710), (43712, 43712), (43714, 43714), (43739, 43741), (43744, 43759),
   (43762, 43765), (43777, 43782), (43785, 43790), (43793, 43798), (43808, 43814), (43816, 43822),
   (43824, 43866), (43868, 43881), (43888, 44010), (44032, 55203), (55216, 55238), (55243, 55291),
   (63744, 64109), (64112, 64217), (64256, 64262), (64275, 64279), (64285, 64296), (64298, 64310),
   (64312, 64316), (64318, 64318), (64320, 64321), (64323, 64324), (64326, 64433), (64467, 64829),
   (64848, 64911), (64914, 64967), (65008, 65019), (65136, 65140), (65142, 65276), (65313, 65338),
   (65345, 65370), (65382, 65470), (65474, 65479), (65482, 65487), (65490, 65495), (65498, 65500),
   (65536, 65547), (65549, 65574), (65576, 65594), (65596, 65597), (65599, 65613), (65616, 65629),
   (65664, 65786), (65856, 65908), (66176, 66204), (66208, 66256), (66304, 66335), (66349, 66378),
   (66384, 66426), (66432, 66461), (66464, 66499), (66504, 66511), (66513, 66517), (66560, 66717),
   (66736, 66771), (66776, 66811), (66816, 66855), (66864, 66915), (66928, 66938), (66940, 66954),
   (66956, 66962), (66964, 66965), (66967, 66977), (66979, 66993), (66995, 67001), (67003, 67004),
   (67072, 67382), (67392, 67413), (67424, 67431), (67456, 67461), (67463, 67504), (67506, 67514),
   (67584, 67589), (67592, 67592), (67594, 67637), (67639, 67640), (67644, 67644), (67647, 67669),
   (67680, 67702), (67712, 67742), (67808, 67826), (67828, 67829), (67840, 67861), (67872, 67897),
   (67968, 68023), (68030, 68031), (68096, 68099), (68101, 68102), (68108, 68115), (68117, 68119),
   (68121, 68149), (68192, 68220), (68224, 68252), (68288, 68295), (68297, 68324), (68352, 68405),
   (68416, 68437), (68448, 68466), (68480, 68497), (68608, 68680), (68736, 68786), (68800, 68850),
   (68864, 68903), (69248, 69289), (69291, 69292), (69296, 69297), (69376, 69404), (69415, 69415),
   (69424, 69445), (69488, 69505), (69552, 69572), (69600, 69622), (69632, 69701), (69745, 69749),
   (69762, 69816), (69826, 69826), (69840, 69864), (69888, 69938), (69956, 69959), (69968, 70002),
   (70006, 70006), (70016, 70079), (70081, 70084), (70094, 70095), (70106, 70106), (70108, 70108),
   (70144, 70161), (70163, 70196), (70199, 70199), (70206, 70206), (70272, 70278), (70280, 70280),
   (70282, 70285), (70287, 70301), (70303, 70312), (70320, 70376), (70400, 70403), (70405, 70412),
   (70415, 70416), (70419, 70440), (70442, 70448), (70450, 70451), (70453, 70457), (70461, 70468),
   (70471, 70472), (70475, 70476), (70480, 70480), (70487, 70487), (70493, 70499), (70656, 70721),
   (70723, 70725), (70727, 70730), (70751, 70753), (70784, 70849), (70852, 70853), (70855, 70855),
   (71040, 71093), (71096, 71102), (71128, 71133), (71168, 71230), (71232, 71232), (71236, 71236),
   (71296, 71349), (71352, 71352), (71424, 71450), (71453, 71466), (71488, 71494), (71680, 71736),
   (71840, 71903), (71935, 71942), (71945, 71945), (71948, 71955), (71957, 71958), (71960, 71989),
   (71991, 71992), (71995, 71996), (71999, 72002), (72096, 72103), (72106, 72151), (72154, 72159),
   (72161, 72161), (72163, 72164), (72192, 72242), (72245, 72254), (72272, 72343), (72349, 72349),
   (72368, 72440), (72704, 72712), (72714, 72758), (72760, 72766), (72768, 72768), (72818, 72847),
   (72850, 72871), (72873, 72886), (72960, 72966), (72968, 72969), (72971, 73014), (73018, 73018),
   (73020, 73021), (73023, 73025), (73027, 73027), (73030, 73031), (73056, 73061), (73063, 73064),
   (73066, 73102), (73104, 73105), (73107, 73110), (73112, 73112), (73440, 73462), (73648, 73648),
   (73728, 74649), (74752, 74862), (74880, 75075), (77712, 77808), (77824, 78894), (82944, 83526),
   (92160, 92728), (92736, 92766), (92784, 92862), (92880, 92909), (92928, 92975), (92992, 92995),
   (93027, 93047), (93053, 93071), (93760, 93823), (93952, 94026), (94031, 94087), (94095, 94111),
   (94176, 94177), (94179, 94179), (94192, 94193), (94208, 100343), (100352, 101589), (101632, 101640),
   (110576, 110579), (110581, 110587), (110589, 110590), (110592, 110882), (110928, 110930), (110948, 110951),
   (110960, 111355), (113664, 113770), (113776, 113788), (113792, 113800), (113808, 113817), (113822, 113822),
   (119808, 119892), (119894, 119964), (119966, 119967), (119970, 119970), (119973, 119974), (119977, 119980),
   (119982, 119993), (119995, 119995), (119997, 120003), (120005, 120069), (120071, 120074), (120077, 120084),
   (120086, 120092), (120094, 120121), (120123, 120126), (120128, 120132), (120134, 120134), (120138, 120144),
   (120146, 120485), (120488, 120512), (120514, 120538), (120540, 120570), (120572, 120596), (120598, 120628),
   (120630, 120654), (120656, 120686), (120688, 120712), (120714, 120744), (120746, 120770), (120772, 120779),
   (122624, 122654), (122880, 122886), (122888, 122904), (122907, 122913), (122915, 122916), (122918, 122922),
   (123136, 123180), (123191, 123197), (123214, 123214), (123536, 123565), (123584, 123627), (124896, 124902),
   (124904, 124907), (124909, 124910), (124912, 124926), (124928, 125124), (125184, 125251), (125255, 125255),
   (125259, 125259), (126464, 126467), (126469, 126495), (126497, 126498), (126500, 126500), (126503, 126503),
   (126505, 126514), (126516, 126519), (126521, 126521), (126523, 126523), (126530, 126530), (126535, 126535),
   (126537, 126537), (126539, 126539), (126541, 126543), (126545, 126546), (126548, 126548), (126551, 126551),
   (126553, 126553), (126555, 126555), (126557, 126557), (126559, 126559), (126561, 126562), (126564, 126564),
   (126567, 126570), (126572, 126578), (126580, 126583), (126585, 126588), (126590, 126590), (126592, 126601),
   (126603, 126619), (126625, 126627), (126629, 126633), (126635, 126651), (127280, 127305), (127312, 127337),
   (127344, 127369), (131072, 173791), (173824, 177976), (177984, 178205), (178208, 183969), (183984, 191456),
   (194560, 195101), (196608, 201546)]

/-- The inclusive ranges of the Unicode numeric general categories `Nd`,
`Nl`, `No` (Unicode 14.0) — the character class accepted by Rust
`char::is_numeric`.  134 ranges, 1791 code points, sorted by code point. -/
def numericRanges : List (Nat × Nat) :=
  [(48, 57), (178, 179), (185, 185), (188, 190), (1632, 1641), (1776, 1785),
   (1984, 1993), (2406, 2415), (2534, 2543), (2548, 2553), (2662, 2671), (2790, 2799),
   (2918, 2927), (2930, 2935), (3046, 3058), (3174, 3183), (3192, 3198), (3302, 3311),
   (3416, 3422), (3430, 3448), (3558, 3567), (3664, 3673), (3792, 3801), (3872, 3891),
   (4160, 4169), (4240, 4249), (4969, 4988), (5870, 5872), (6112, 6121), (6128, 6137),
   (6160, 6169), (6470, 6479), (6608, 6618), (6784, 6793), (6800, 6809), (6992, 7001),
   (7088, 7097), (7232, 7241), (7248, 7257), (8304, 8304), (8308, 8313), (8320, 8329),
   (8528, 8578), (8581, 8585), (9312, 9371), (9450, 9471), (10102, 10131), (11517, 11517),
   (12295, 12295), (12321, 12329), (12344, 12346), (12690, 12693), (12832, 12841), (12872, 12879),
   (12881, 12895), (12928, 12937), (12977, 12991), (42528, 42537), (42726, 42735), (43056, 43061),
   (43216, 43225), (43264, 43273), (43472, 43481), (43504, 43513), (43600, 43609), (44016, 44025),
   (65296, 65305), (65799, 65843), (65856, 65912), (65930, 65931), (66273, 66299), (66336, 66339),
   (66369, 66369), (66378, 66378), (66513, 66517), (66720, 66729), (67672, 67679), (67705, 67711),
   (67751, 67759), (67835, 67839), (67862, 67867), (68028, 68029), (68032, 68047), (68050, 68095),
   (68160, 68168), (68221, 68222), (68253, 68255), (68331, 68335), (68440, 68447), (68472, 68479),
   (68521, 68527), (68858, 68863), (68912, 68921), (69216, 69246), (69405, 69414), (69457, 69460),
   (69573, 69579), (69714, 69743), (69872, 69881), (69942, 69951), (70096, 70105), (70113, 70132),
   (70384, 70393), (70736, 70745), (70864, 70873), (71248, 71257), (71360, 71369), (71472, 71483),
   (71904, 71922), (72016, 72025), (72784, 72812), (73040, 73049), (73120, 73129), (73664, 73684),
   (74752, 74862), (92768, 92777), (92864, 92873), (93008, 93017), (93019, 93025), (93824, 93846),
   (119520, 119539), (119648, 119672), (120782, 120831), (123200, 123209), (123632, 123641), (125127, 125135),
   (125264, 125273), (126065, 126123), (126125, 126127), (126129, 126132), (126209, 126253), (126255, 126269),
   (127232, 127244), (130032, 130041)]

/-- Model of Rust `char::is_alphabetic`: the Unicode `Alphabetic` derived
property. -/
def rustIsAlphabetic (c : Char) : Bool :=
  inSortedRanges c.toNat alphabeticRanges

/-- Model of Rust `char::is_numeric`: the Unicode `Nd`/`Nl`/`No`
categories. -/
def rustIsNumeric (c : Char) : Bool :=
  inSortedRanges c.toNat numericRanges

/-- Model of Rust `char::is_alphanumeric`:
`is_alphabetic() || is_numeric()`. -/
def rustIsAlphanumeric (c : Char) : Bool :=
  rustIsAlphabetic c || rustIsNumeric c

/-- The character class of a simple variable name continuation
(`c.is_alphanumeric() || c == '_'`, src/scanner.rs line 289). -/
def isVarChar (c : Char) : Bool :=
  rustIsAlphanumeric c || c = '_'

/-- The dispatch class starting a simple variable
(`c.is_alphabetic() || c == '_'`, src/scanner.rs line 177). -/
def isSimpleVarStart (c : Char) : Bool :=
  rustIsAlphabetic c || c = '_'

/-- Rust slice `&src[s..e]` in the character-index model. -/
def slice (src : List Char) (s e : Nat) : List Char :=
  (src.drop s).take (e - s)

/-! ## Position search

`findFrom p src i` is the first index `j ≥ i` with `p src[j]`; it models the
`memchr`/`memchr2`/`memchr3` forward searches of the scanner (the
combination at src/scanner.rs lines 44-51 takes the minimum of the two
searches, i.e. exactly the first special position). -/

def findFromAux (p : Char → Bool) : List Char → Nat → Option Nat
  | [], _ => none
  | c :: rest, i => if p c then some i else findFromAux p rest (i + 1)

def findFrom (p : Char → Bool) (src : List Char) (i : Nat) : Option Nat :=
  findFromAux p (src.drop i) i

/-! ## Scanner loops (src/scanner.rs) -/

/-- The single-quote interior scan (src/scanner.rs lines 75-101): look for
the closing quote, skipping backslash-escaped characters; returns the
position just past the closing quote, `none` when the quote is never
closed. -/
def quoteScanAux (src : List Char) : Nat → Nat → Option Nat
  | 0, _ => none
  | fuel + 1, pos =>
    match findFrom (fun c => c = quoteChar || c = backslashChar) src pos with
    | none => none
    | some j =>
      match src[j]? with
      | none => none
      | some c =>
        if c = backslashChar then
          if j + 1 < src.length then quoteScanAux src fuel (j + 2) else none
        else some (j + 1)

def quoteScan (src : List Char) (pos : Nat) : Option Nat :=
  quoteScanAux src (src.length + 1) pos

/-- Brace matching for `${...}` (src/scanner.rs lines 311-324): find the
index of the matching close brace, scanning from `j` with open-brace
`balance`. -/
def findCloseBraceAux (src : List Char) : Nat → Nat → Nat → Option Nat
  | 0, _, _ => none
  | fuel + 1, j, balance =>
    match src[j]? with
    | none => none
    | some c =>
      if c = Char.ofNat 125 then
        if balance = 1 then some j else findCloseBraceAux src fuel (j + 1) (balance - 1)
      else if c = Char.ofNat 123 then findCloseBraceAux src fuel (j + 1) (balance + 1)
      else findCloseBraceAux src fuel (j + 1) balance

def findCloseBrace (src : List Char) (j : Nat) : Option Nat :=
  findCloseBraceAux src (src.length + 1) j 1

/-- Close-paren search for `$( ... )` (src/scanner.rs lines 193-228):
depth counting, treating single-quoted and double-quoted sub-spans (with
backslash awareness) as opaque.  Returns the index of the closing paren. -/
def cmdSubScanAux (src : List Char) : Nat → Nat → Nat → Bool → Bool → Option Nat
  | 0, _, _, _, _ => none
  | fuel + 1, j, depth, inSingle, inDouble =>
    match src[j]? with
    | none => none
    | some c =>
      if inSingle then
        if c = quoteChar then cmdSubScanAux src fuel (j + 1) depth false inDouble
        else cmdSubScanAux src fuel (j + 1) depth true inDouble
      else if inDouble then
        if c = '"' then cmdSubScanAux src fuel (j + 1) depth inSingle false
        else if c = backslashChar then cmdSubScanAux src fuel (j + 2) depth inSingle true
        else cmdSubScanAux src fuel (j + 1) depth inSingle true
      else
        if c = '(' then cmdSubScanAux src fuel (j + 1) (depth + 1) inSingle inDouble
        else if c = ')' then
          if depth = 1 then some j
          else cmdSubScanAux src fuel (j + 1) (depth - 1) inSingle inDouble
        else if c = quoteChar then cmdSubScanAux src fuel (j + 1) depth true inDouble
        else if c = '"' then cmdSubScanAux src fuel (j + 1) depth inSingle true
        else if c = backslashChar then cmdSubScanAux src fuel (j + 2) depth inSingle inDouble
        else cmdSubScanAux src fuel (j + 1) depth inSingle inDouble

def cmdSubScan (src : List Char) (j : Nat) : Option Nat :=
  cmdSubScanAux src (src.length + 1) j 1 false false

/-- Closing-backtick search (src/scanner.rs lines 248-269): only `\`
followed by any character is skipped (the Rust match consumes the escaped
character whether or not it is a backtick or backslash). -/
def backtickScanAux (src : List Char) : Nat → Nat → Option Nat
  | 0, _ => none
  | fuel + 1, j =>
    match src[j]? with
    | none => none
    | some c =>
      if c = backslashChar then
        match src[j+1]? with
        | some _ => backtickScanAux src fuel (j + 2)
        | none => none
      else if c = backtickChar then some j
      else backtickScanAux src fuel (j + 1)

def backtickScan (src : List Char) (j : Nat) : Option Nat :=
  backtickScanAux src (src.length + 1) j

/-! ## Parsers called from `scan_next` ($-dispatch and backticks).
Each returns `(token, range.start, range.end)`; the new scanner cursor is
always `range.end`, as in the source (where `byte_idx` is assigned before
the range is built from it). -/

/-- Model of `Scanner::parse_simple_variable` (src/scanner.rs lines 284-305):
longest run of alphanumeric/`_` after the `$`. -/
def runLenAux (p : Char → Bool) : List Char → Nat
  | [] => 0
  | c :: rest => if p c then runLenAux p rest + 1 else 0

def parse_simple_variable (src : List Char) (p : Nat) : Except Error (Token × Nat × Nat) :=
  let n := runLenAux isVarChar (src.drop (p + 1))
  .ok (.Variable (slice src (p + 1) (p + 1 + n)) none false false, p, p + 1 + n)

/-- The modifier search inside `${...}` content (src/scanner.rs lines
333-358): first occurrence of `:-`, `:+`, `-` or `+`; a `:` not followed by
`-`/`+` is skipped.  Returns `(name_len, strict, conditional,
default_start)`. -/
def findModifierAux : List Char → Nat → Option (Nat × Bool × Bool × Nat)
  | [], _ => none
  | c :: rest, i =>
    if c = ':' then
      match rest.head? with
      | some c2 =>
        if c2 = '-' then some (i, true, false, i + 2)
        else if c2 = '+' then some (i, true, true, i + 2)
        else findModifierAux rest (i + 1)
      | none => findModifierAux rest (i + 1)
    else if c = '-' then some (i, false, false, i + 1)
    else if c = '+' then some (i, false, true, i + 1)
    else findModifierAux rest (i + 1)

/-- Model of `Scanner::parse_braced_variable` (src/scanner.rs lines 307-379). -/
def parse_braced_variable (src : List Char) (p : Nat) : Except Error (Token × Nat × Nat) :=
  match findCloseBrace src (p + 2) with
  | none => .error (.UnclosedBrace p)
  | some endIdx =>
    let content := slice src (p + 2) endIdx
    match findModifierAux content 0 with
    | none =>
      .ok (.Variable content none false false, p, endIdx + 1)
    | some (nameLen, strict, conditional, defStart) =>
      .ok (.Variable (content.take nameLen) (some (content.drop defStart)) strict conditional,
           p, endIdx + 1)

/-- Model of `Scanner::parse_command_substitution` (src/scanner.rs lines 188-238). -/
def parse_command_substitution (src : List Char) (p : Nat) : Except Error (Token × Nat × Nat) :=
  match cmdSubScan src (p + 2) with
  | none =>
    .error (.SyntaxError ("Unclosed command substitution starting at " ++ Nat.repr p) p)
  | some endIdx => .ok (.Command (slice src (p + 2) endIdx), p, endIdx + 1)

/-- Model of `Scanner::parse_backtick_command` (src/scanner.rs lines 240-282). -/
def parse_backtick_command (src : List Char) (p : Nat) : Except Error (Token × Nat × Nat) :=
  match backtickScan src (p + 1) with
  | none =>
    .error (.SyntaxError ("Unclosed backtick command starting at " ++ Nat.repr p) p)
  | some endIdx => .ok (.BacktickCommand (slice src (p + 1) endIdx), p, endIdx + 1)

/-- Model of `Scanner::parse_variable` (src/scanner.rs lines 165-186): dispatch on
the character after `$`.  The Rust match on `iter.next()` is an if-chain
here because its patterns are character literals. -/
def parse_variable (src : List Char) (p : Nat) : Except Error (Token × Nat × Nat) :=
  match src[p+1]? with
  | none => .ok (.Literal (slice src p (p + 1)), p, p + 1)
  | some c =>
    if c = Char.ofNat 123 then parse_braced_variable src p
    else if c = '(' then parse_command_substitution src p
    else if isSimpleVarStart c then parse_simple_variable src p
    else .ok (.Literal (slice src p (p + 1)), p, p + 1)

/-! ## `Scanner::scan_next` (src/scanner.rs lines 32-163) -/

/-- The body of the `while current < len` loop of `scan_next`.  `start` is
the position at which this `scan_next` call began, `current` the loop
cursor.  The fuel-exhausted branch returns `.ok none`; the adequacy lemma
below shows it is never reached from the public entry point. -/
def scanLoopF (src : List Char) : Nat → Nat → Nat → Except Error (Option (Token × Nat × Nat))
  | 0, _, _ => .ok none
  | fuel + 1, start, current =>
    if current < src.length then
      match findFrom isSpecialChar src current with
      | none =>
        -- no more special characters: the rest is literal (lines 148-151,
        -- then loop exit at lines 156-162 with current = len)
        if start < src.length then
          .ok (some (.Literal (slice src start src.length), start, src.length))
        else .ok none
      | some p =>
        match src[p]? with
        | none => .ok none  -- unreachable: findFrom returns in-bounds indices
        | some c =>
          if c = backslashChar then
            -- lines 58-69: skip the backslash and the escaped character
            scanLoopF src fuel start (if p + 1 < src.length then p + 2 else src.length)
          else if c = quoteChar then
            -- lines 70-105: absorb the quoted block into the literal run
            match quoteScan src (p + 1) with
            | some r => scanLoopF src fuel start r
            | none => scanLoopF src fuel start src.length
          else if c = '$' then
            -- lines 106-125
            if start < p then .ok (some (.Literal (slice src start p), start, p))
            else
              match parse_variable src p with
              | .error e => .error e
              | .ok r => .ok (some r)
          else
            -- lines 126-145: backtick (findFrom only yields special chars)
            if start < p then .ok (some (.Literal (slice src start p), start, p))
            else
              match parse_backtick_command src p with
              | .error e => .error e
              | .ok r => .ok (some r)
    else
      -- loop exit (lines 155-162); the invariant current ≤ len makes the
      -- emitted text src[start..len]
      if start < src.length then
        .ok (some (.Literal (slice src start src.length), start, src.length))
      else .ok none

/-- Model of `Scanner::scan_next` starting at cursor `i`.  Returns the token, its
range, with the new cursor equal to the range end. -/
def scan_next (src : List Char) (i : Nat) : Except Error (Option (Token × Nat × Nat)) :=
  if src.length ≤ i then .ok none
  else scanLoopF src (src.length + 1) i i

/-! ## Resolver (src/interpolator.rs)

`resolve(input, depth)` recurses through `resolve_variable` at `depth + 1`
and fails as soon as `depth > max_depth` (lines 200-203).  It is rendered
as `resolveF` below, structural in the fuel `max_depth + 1 - depth`; the
fuel-zero case is exactly the `depth > max_depth` error.  The nested call
at `depth + 1` is the recursive occurrence at one unit less fuel, threaded
into the token loop as the function argument `recur`. -/

/-- Placeholder for an escaped backtick (src/interpolator.rs line 311). -/
def ESCAPED_BACKTICK_PLACEHOLDER : Char := Char.ofNat 0

/-- Placeholder for an escaped dollar (src/interpolator.rs line 312). -/
def ESCAPED_DOLLAR_PLACEHOLDER : Char := Char.ofNat 1

/-- The character produced for one escaped character by
`Interpolator::unescape_into` (src/interpolator.rs lines 316-344). -/
def escResult (c : Char) : Char :=
  if c = 'n' then Char.ofNat 10
  else if c = 'r' then Char.ofNat 13
  else if c = 't' then Char.ofNat 9
  else if c = backslashChar then backslashChar
  else if c = '"' then '"'
  else if c = quoteChar then quoteChar
  else if c = backtickChar then ESCAPED_BACKTICK_PLACEHOLDER
  else if c = '$' then ESCAPED_DOLLAR_PLACEHOLDER
  else c

/-- Model of `Interpolator::unescape_into` (src/interpolator.rs lines 314-349):
append `s` to `buf`, resolving backslash escapes. -/
def unescape_into (buf : List Char) : List Char → List Char
  | [] => buf
  | c :: rest =>
    if c = backslashChar then
      match rest with
      | [] => buf ++ [backslashChar]
      | c2 :: rest2 => unescape_into (buf ++ [escResult c2]) rest2
    else unescape_into (buf ++ [c]) rest

/-- Model of `Interpolator::restore_escaped_chars` (src/interpolator.rs lines
352-360). -/
def restore_escaped_chars (s : List Char) : List Char :=
  s.map (fun c =>
    if c = ESCAPED_BACKTICK_PLACEHOLDER then backtickChar
    else if c = ESCAPED_DOLLAR_PLACEHOLDER then '$'
    else c)

/-- Model of `Interpolator::maybe_restore_placeholders` (src/interpolator.rs lines
76-85). -/
def maybe_restore_placeholders (c : Cow) : Except Error Cow :=
  let s := c.val
  if s.contains ESCAPED_BACKTICK_PLACEHOLDER || s.contains ESCAPED_DOLLAR_PLACEHOLDER then
    .ok (.Owned (restore_escaped_chars s))
  else .ok c

/-- Model of `Interpolator::resolve_variable` (src/interpolator.rs lines 362-460).
`recur` is `|s| self.resolve(s, depth + 1)`, the form in which all four
recursive call sites appear. -/
def resolve_variable (ctx : Provider) (cfg : Config)
    (recur : List Char → Except Error Cow)
    (name : List Char) (dflt : Option (List Char)) (strict conditional : Bool) :
    Except Error Cow :=
  let valOpt := ctx name
  -- lines 366-371: effective modifier under the feature flags
  let useFlags : Bool × Bool × Bool :=
    match dflt, strict, conditional with
    | some _, true, false => (cfg.features.defaults, false, false)
    | some _, false, false => (false, cfg.features.alternates, false)
    | some _, _, true => (false, false, cfg.features.conditionals)
    | none, _, _ => (false, false, false)
  let effectiveDefault : Option (List Char) :=
    if useFlags.1 || useFlags.2.1 || useFlags.2.2 then dflt else none
  -- lines 389-410: conditional (`+` family) handling; feature disabled
  -- falls through to the plain lookup below
  if conditional && cfg.features.conditionals then
    match valOpt with
    | some v =>
      if strict && v.isEmpty then .ok (.Borrowed [])
      else
        match effectiveDefault with
        | some defRaw => recur defRaw
        | none => .ok (.Borrowed [])
    | none => .ok (.Borrowed [])
  else
    -- lines 416-459
    match valOpt with
    | some v =>
      -- lines 417-434: an empty value under `:-` uses the default when the
      -- defaults feature is on; otherwise the value itself, recursively
      -- resolved, always as an owned string
      if !conditional && strict && v.isEmpty && cfg.features.defaults then
        match dflt with
        | some defRaw => recur defRaw
        | none =>
          match recur v with
          | .error e => .error e
          | .ok r => .ok (.Owned r.val)
      else
        match recur v with
        | .error e => .error e
        | .ok r => .ok (.Owned r.val)
    | none =>
      -- lines 436-458: unset variable
      if !conditional && strict && cfg.features.defaults then
        match dflt with
        | some defRaw => recur defRaw
        | none => .error (.MissingVar name)
      else if !conditional && !strict && cfg.features.alternates then
        match dflt with
        | some defRaw => recur defRaw
        | none => .error (.MissingVar name)
      else .error (.MissingVar name)

/-- The code after the token loop of `Interpolator::resolve` (lines
287-306): flush the tail after the last consumed range into the owned
buffer, or — when no token forced a switch — process escapes or return the
borrowed input. -/
def resolveFinish (cfg : Config) (input : List Char) :
    Option (List Char) → Nat → Except Error Cow
  | some res, lastPos =>
    let res :=
      if lastPos < input.length then
        let tail := input.drop lastPos
        if cfg.features.escapes && tail.contains backslashChar then
          unescape_into res tail
        else res ++ tail
      else res
    .ok (.Owned res)
  | none, _ =>
    if cfg.features.escapes && input.contains backslashChar then
      .ok (.Owned (unescape_into [] input))
    else .ok (.Borrowed input)

/-- The token loop of `Interpolator::resolve` (src/interpolator.rs lines
216-306).  `idx` is the scanner cursor, `result` the owned buffer once the
call has switched from borrowed to owned, `lastPos` the end of the last
consumed range.  The fuel-zero branch is unreachable from `resolveF`, which
supplies fuel `input.length + 1` while every scanned range strictly
advances the cursor. -/
def resolveLoopF (ctx : Provider) (cfg : Config)
    (recur : List Char → Except Error Cow) (input : List Char) :
    Nat → Nat → Option (List Char) → Nat → Except Error Cow
  | 0, _, _, _ => .ok (.Borrowed [])
  | fuel + 1, idx, result, lastPos =>
    match scan_next input idx with
    | .error e => .error e
    | .ok none => resolveFinish cfg input result lastPos
    | .ok (some (tok, s, e)) =>
      -- lines 227-246: on the first Variable token, switch to an owned
      -- buffer pre-filled with everything before it
      let result :=
        match result, tok with
        | none, .Variable _ _ _ _ => some (input.take s)
        | r, _ => r
      match result with
      | some res =>
        -- lines 248-270
        match tok with
        | .Literal t =>
          if cfg.features.escapes && t.contains backslashChar then
            resolveLoopF ctx cfg recur input fuel e (some (unescape_into res t)) e
          else resolveLoopF ctx cfg recur input fuel e (some (res ++ t)) e
        | .Variable name dflt strict conditional =>
          if cfg.features.vars then
            match resolve_variable ctx cfg recur name dflt strict conditional with
            | .error er => .error er
            | .ok val => resolveLoopF ctx cfg recur input fuel e (some (res ++ val.val)) e
          else resolveLoopF ctx cfg recur input fuel e (some (res ++ slice input s e)) e
        | .Command _ =>
          resolveLoopF ctx cfg recur input fuel e (some (res ++ slice input s e)) e
        | .BacktickCommand _ =>
          resolveLoopF ctx cfg recur input fuel e (some (res ++ slice input s e)) e
      | none =>
        -- lines 271-282: still borrowed; only a Literal containing a
        -- backslash (with escapes enabled) forces the switch here.  The
        -- Variable case cannot occur (the switch above caught it); it is
        -- carried by the catch-all, which leaves the state unchanged as
        -- the source does for Command/BacktickCommand.
        match tok with
        | .Literal t =>
          if cfg.features.escapes && t.contains backslashChar then
            resolveLoopF ctx cfg recur input fuel e
              (some (unescape_into (input.take s) t)) e
          else resolveLoopF ctx cfg recur input fuel e none e
        | _ => resolveLoopF ctx cfg recur input fuel e none e

/-- Model of `Interpolator::resolve` at fuel `max_depth + 1 - depth` (so fuel zero
is exactly the `depth > max_depth` check of lines 200-203). -/
def resolveF (ctx : Provider) (cfg : Config) : Nat → List Char → Except Error Cow
  | 0, input => .error (.RecursiveLookup input)
  | fuel + 1, input =>
    resolveLoopF ctx cfg (resolveF ctx cfg fuel) input (input.length + 1) 0 none 0

/-- Model of `Interpolator::resolve(input, depth)` (src/interpolator.rs lines
200-307). -/
def resolve (ctx : Provider) (cfg : Config) (input : List Char) (depth : Nat) :
    Except Error Cow :=
  resolveF ctx cfg (cfg.max_depth + 1 - depth) input

/-- Model of `Interpolator::interpolate` (src/interpolator.rs lines 33-37): the
synchronous entry point. -/
def interpolate (ctx : Provider) (cfg : Config) (input : List Char) :
    Except Error Cow :=
  match resolve ctx cfg input 0 with
  | .error e => .error e
  | .ok c => maybe_restore_placeholders c

/-! ## Reference extractor (src/lib.rs lines 76-90) -/

/-- Model of `HashSet::insert` observable on a duplicate-free list model. -/
def insertIfAbsent (acc : List (List Char)) (n : List Char) : List (List Char) :=
  if acc.contains n then acc else acc ++ [n]

/-- Lexicographic (code-point) order on names; UTF-8 byte order, as used by
Rust's `String` sort, agrees with code-point order. -/
def nameLe : List Char → List Char → Bool
  | [], _ => true
  | _ :: _, [] => false
  | a :: as_, b :: bs =>
    if a < b then true
    else if b < a then false
    else nameLe as_ bs

/-- The order as a decidable relation. -/
def nameLeProp : List Char → List Char → Prop := fun a b => nameLe a b = true

instance : DecidableRel nameLeProp := fun a b => instDecidableEqBool (nameLe a b) true

/-- Model of `Vec::sort` observable behaviour: a sorted permutation of the input. -/
def sortNames (l : List (List Char)) : List (List Char) :=
  List.insertionSort nameLeProp l

/-- The `while let Ok(Some(..))` collection loop of
`find_variable_references` (src/lib.rs lines 80-85): stops at the first
scan error or at the end, inserting each `Variable` name into the set. -/
def fvrLoopF (src : List Char) : Nat → Nat → List (List Char) → List (List Char)
  | 0, _, acc => acc
  | gas + 1, i, acc =>
    match scan_next src i with
    | .error _ => acc
    | .ok none => acc
    | .ok (some (tok, _, e)) =>
      match tok with
      | .Variable name _ _ _ => fvrLoopF src gas e (insertIfAbsent acc name)
      | _ => fvrLoopF src gas e acc

/-- Model of `find_variable_references` (src/lib.rs lines 76-90). -/
def find_variable_references (src : List Char) : List (List Char) :=
  sortNames (fvrLoopF src (src.length + 1) 0 [])

/-! ## Whole-input scans (used to state the claims) -/

/-- All tokens with ranges, or the scanner error (`scan_next` driven to the
end). -/
def scanAllF (src : List Char) : Nat → Nat → Except Error (List (Token × Nat × Nat))
  | 0, _ => .ok []
  | gas + 1, i =>
    match scan_next src i with
    | .error e => .error e
    | .ok none => .ok []
    | .ok (some (t, s, e)) =>
      match scanAllF src gas e with
      | .error er => .error er
      | .ok rest => .ok ((t, s, e) :: rest)

def scanAll (src : List Char) : Except Error (List (Token × Nat × Nat)) :=
  scanAllF src (src.length + 1) 0

/-- The tokens emitted before the scan stops (at the end or at the first
error) — the stream `find_variable_references` actually consumes. -/
def scanPrefixF (src : List Char) : Nat → Nat → List (Token × Nat × Nat)
  | 0, _ => []
  | gas + 1, i =>
    match scan_next src i with
    | .error _ => []
    | .ok none => []
    | .ok (some (t, s, e)) => (t, s, e) :: scanPrefixF src gas e

def scanPrefix (src : List Char) : List (Token × Nat × Nat) :=
  scanPrefixF src (src.length + 1) 0

/-! ## Search lemmas -/

theorem findFromAux_some {p : Char → Bool} :
    ∀ (l : List Char) (i j : Nat), findFromAux p l i = some j →
      i ≤ j ∧ j - i < l.length ∧ ∃ c, l[j - i]? = some c ∧ p c = true := by
  intro l
  induction l with
  | nil => intro i j h; simp [findFromAux] at h
  | cons c rest ih =>
    intro i j h
    by_cases hc : p c
    · simp only [findFromAux, hc, if_true] at h
      obtain rfl : i = j := by injection h
      exact ⟨le_refl _, by simp, c, by simp, hc⟩
    · simp only [findFromAux, hc, if_false] at h
      obtain ⟨h1, h2, c2, h3, h4⟩ := ih (i + 1) j h
      have hji : j - i = (j - (i + 1)) + 1 := by omega
      refine ⟨by omega, ?_, c2, ?_, h4⟩
      · simp only [List.length_cons]; omega
      · rw [hji, List.getElem?_cons_succ]; exact h3

theorem findFrom_some {p : Char → Bool} {src : List Char} {i j : Nat}
    (h : findFrom p src i = some j) :
    i ≤ j ∧ j < src.length ∧ ∃ c, src[j]? = some c ∧ p c = true := by
  obtain ⟨h1, h2, c, h3, h4⟩ := findFromAux_some (src.drop i) i j h
  rw [List.getElem?_drop] at h3
  rw [List.length_drop] at h2
  have hij : i + (j - i) = j := by omega
  rw [hij] at h3
  exact ⟨h1, by omega, c, h3, h4⟩

theorem findFromAux_none_intro {p : Char → Bool} :
    ∀ (l : List Char) (i : Nat), (∀ c ∈ l, p c = false) → findFromAux p l i = none := by
  intro l
  induction l with
  | nil => intro i _; rfl
  | cons c rest ih =>
    intro i h
    have hc : p c = false := h c (by simp)
    simp only [findFromAux, hc, if_false]
    exact ih (i + 1) (fun x hx => h x (by simp [hx]))

theorem findFrom_none_intro {p : Char → Bool} {src : List Char} (i : Nat)
    (h : ∀ c ∈ src, p c = false) : findFrom p src i = none :=
  findFromAux_none_intro (src.drop i) i
    (fun c hc => h c (List.mem_of_mem_drop hc))

theorem findFrom_self {p : Char → Bool} {src : List Char} {i : Nat} {c : Char}
    (h : src[i]? = some c) (hc : p c = true) : findFrom p src i = some i := by
  obtain ⟨hi, hg⟩ := List.getElem?_eq_some.mp h
  unfold findFrom
  rw [List.drop_eq_getElem_cons hi, hg]
  simp [findFromAux, hc]

/-! ## Bounds of the delimiter searches -/

theorem quoteScanAux_some {src : List Char} :
    ∀ (fuel pos r : Nat), quoteScanAux src fuel pos = some r →
      pos < r ∧ r ≤ src.length := by
  intro fuel
  induction fuel with
  | zero => intro pos r h; simp [quoteScanAux] at h
  | succ n ih =>
    intro pos r h
    unfold quoteScanAux at h
    cases hf : findFrom (fun c => c = quoteChar || c = backslashChar) src pos with
    | none => simp only [hf] at h; exact Option.noConfusion h
    | some j =>
      simp only [hf] at h
      obtain ⟨hj1, hj2, c, hc, _⟩ := findFrom_some hf
      simp only [hc] at h
      split at h
      · split at h
        · obtain ⟨a, b⟩ := ih (j + 2) r h
          exact ⟨by omega, b⟩
        · simp at h
      · obtain rfl : j + 1 = r := by injection h
        exact ⟨by omega, by omega⟩

theorem quoteScan_some {src : List Char} {pos r : Nat}
    (h : quoteScan src pos = some r) : pos < r ∧ r ≤ src.length :=
  quoteScanAux_some _ _ _ h

theorem findCloseBraceAux_some {src : List Char} :
    ∀ (fuel j balance r : Nat), findCloseBraceAux src fuel j balance = some r →
      j ≤ r ∧ r < src.length := by
  intro fuel
  induction fuel with
  | zero => intro j b r h; simp [findCloseBraceAux] at h
  | succ n ih =>
    intro j b r h
    unfold findCloseBraceAux at h
    cases hg : src[j]? with
    | none => simp only [hg] at h; exact Option.noConfusion h
    | some c =>
      simp only [hg] at h
      have hj : j < src.length := (List.getElem?_eq_some.mp hg).1
      split at h
      · split at h
        · obtain rfl : j = r := by injection h
          exact ⟨le_refl _, hj⟩
        · obtain ⟨a, b⟩ := ih _ _ _ h; exact ⟨by omega, b⟩
      · split at h
        · obtain ⟨a, b⟩ := ih _ _ _ h; exact ⟨by omega, b⟩
        · obtain ⟨a, b⟩ := ih _ _ _ h; exact ⟨by omega, b⟩

theorem findCloseBrace_some {src : List Char} {j r : Nat}
    (h : findCloseBrace src j = some r) : j ≤ r ∧ r < src.length :=
  findCloseBraceAux_some _ _ _ _ h

theorem cmdSubScanAux_some {src : List Char} :
    ∀ (fuel j depth : Nat) (inS inD : Bool) (r : Nat),
      cmdSubScanAux src fuel j depth inS inD = some r →
      j ≤ r ∧ r < src.length := by
  intro fuel
  induction fuel with
  | zero => intro j d a b r h; simp [cmdSubScanAux] at h
  | succ n ih =>
    intro j d a b r h
    unfold cmdSubScanAux at h
    cases hg : src[j]? with
    | none => simp only [hg] at h; exact Option.noConfusion h
    | some c =>
      simp only [hg] at h
      have hj : j < src.length := (List.getElem?_eq_some.mp hg).1
      repeat' split at h
      all_goals
        try (obtain ⟨a2, b2⟩ := ih _ _ _ _ _ h; exact ⟨by omega, b2⟩)
      all_goals (cases h; exact ⟨le_refl _, hj⟩)

theorem cmdSubScan_some {src : List Char} {j r : Nat}
    (h : cmdSubScan src j = some r) : j ≤ r ∧ r < src.length :=
  cmdSubScanAux_some _ _ _ _ _ _ h

theorem backtickScanAux_some {src : List Char} :
    ∀ (fuel j r : Nat), backtickScanAux src fuel j = some r →
      j ≤ r ∧ r < src.length := by
  intro fuel
  induction fuel with
  | zero => intro j r h; simp [backtickScanAux] at h
  | succ n ih =>
    intro j r h
    unfold backtickScanAux at h
    cases hg : src[j]? with
    | none => simp only [hg] at h; exact Option.noConfusion h
    | some c =>
      simp only [hg] at h
      have hj : j < src.length := (List.getElem?_eq_some.mp hg).1
      split at h
      · cases hg2 : src[j+1]? with
        | none => simp only [hg2] at h; exact Option.noConfusion h
        | some c2 =>
          simp only [hg2] at h
          obtain ⟨a, b⟩ := ih _ _ h
          exact ⟨by omega, b⟩
      · split at h
        · obtain rfl : j = r := by injection h
          exact ⟨le_refl _, hj⟩
        · obtain ⟨a, b⟩ := ih _ _ h
          exact ⟨by omega, b⟩

theorem backtickScan_some {src : List Char} {j r : Nat}
    (h : backtickScan src j = some r) : j ≤ r ∧ r < src.length :=
  backtickScanAux_some _ _ _ h

theorem runLenAux_le (p : Char → Bool) : ∀ (l : List Char), runLenAux p l ≤ l.length := by
  intro l
  induction l with
  | nil => simp [runLenAux]
  | cons c rest ih =>
    simp only [runLenAux, List.length_cons]
    split
    · omega
    · omega

/-! ## Parser output facts: every emitted token's range starts at the call
position, is non-empty, ends inside the source, and a `Literal` token's
text is exactly the source slice of its range. -/

def TokOut (src : List Char) (start : Nat) (r : Token × Nat × Nat) : Prop :=
  r.2.1 = start ∧ start < r.2.2 ∧ r.2.2 ≤ src.length ∧
    (∀ txt, r.1 = Token.Literal txt → txt = slice src r.2.1 r.2.2)

theorem parse_simple_variable_ok {src : List Char} {p : Nat} {r : Token × Nat × Nat}
    (hp : p < src.length) (h : parse_simple_variable src p = .ok r) : TokOut src p r := by
  have hrun := runLenAux_le isVarChar (src.drop (p + 1))
  rw [List.length_drop] at hrun
  obtain rfl : (Token.Variable (slice src (p + 1) (p + 1 + runLenAux isVarChar (src.drop (p + 1)))) none false false, p,
      p + 1 + runLenAux isVarChar (src.drop (p + 1))) = r := by
    injection h
  dsimp only [TokOut]
  exact ⟨rfl, by omega, by omega, fun txt ht => by simp at ht⟩

theorem parse_braced_variable_ok {src : List Char} {p : Nat} {r : Token × Nat × Nat}
    (h : parse_braced_variable src p = .ok r) : TokOut src p r := by
  unfold parse_braced_variable at h
  cases hf : findCloseBrace src (p + 2) with
  | none => simp only [hf] at h; exact Except.noConfusion h
  | some endIdx =>
    simp only [hf] at h
    obtain ⟨ha, hb⟩ := findCloseBrace_some hf
    cases hm : findModifierAux (slice src (p + 2) endIdx) 0 with
    | none =>
      simp only [hm] at h
      obtain rfl : (Token.Variable (slice src (p + 2) endIdx) none false false, p, endIdx + 1) = r := by
        injection h
      dsimp only [TokOut]
      exact ⟨rfl, by omega, by omega, fun txt ht => by simp at ht⟩
    | some m =>
      obtain ⟨nameLen, strict, conditional, defStart⟩ := m
      simp only [hm] at h
      obtain rfl : (Token.Variable ((slice src (p + 2) endIdx).take nameLen)
          (some ((slice src (p + 2) endIdx).drop defStart)) strict conditional, p, endIdx + 1) = r := by
        injection h
      dsimp only [TokOut]
      exact ⟨rfl, by omega, by omega, fun txt ht => by simp at ht⟩

theorem parse_command_substitution_ok {src : List Char} {p : Nat} {r : Token × Nat × Nat}
    (h : parse_command_substitution src p = .ok r) : TokOut src p r := by
  unfold parse_command_substitution at h
  cases hf : cmdSubScan src (p + 2) with
  | none => simp only [hf] at h; exact Except.noConfusion h
  | some endIdx =>
    simp only [hf] at h
    obtain ⟨ha, hb⟩ := cmdSubScan_some hf
    obtain rfl : (Token.Command (slice src (p + 2) endIdx), p, endIdx + 1) = r := by
      injection h
    dsimp only [TokOut]
    exact ⟨rfl, by omega, by omega, fun txt ht => by simp at ht⟩

theorem parse_backtick_command_ok {src : List Char} {p : Nat} {r : Token × Nat × Nat}
    (h : parse_backtick_command src p = .ok r) : TokOut src p r := by
  unfold parse_backtick_command at h
  cases hf : backtickScan src (p + 1) with
  | none => simp only [hf] at h; exact Except.noConfusion h
  | some endIdx =>
    simp only [hf] at h
    obtain ⟨ha, hb⟩ := backtickScan_some hf
    obtain rfl : (Token.BacktickCommand (slice src (p + 1) endIdx), p, endIdx + 1) = r := by
      injection h
    dsimp only [TokOut]
    exact ⟨rfl, by omega, by omega, fun txt ht => by simp at ht⟩

theorem parse_variable_ok {src : List Char} {p : Nat} {r : Token × Nat × Nat}
    (hp : p < src.length) (h : parse_variable src p = .ok r) : TokOut src p r := by
  unfold parse_variable at h
  cases hg : src[p+1]? with
  | none =>
    simp only [hg] at h
    obtain rfl : (Token.Literal (slice src p (p + 1)), p, p + 1) = r := by injection h
    dsimp only [TokOut]
    exact ⟨rfl, by omega, by omega, fun txt ht => by cases ht; rfl⟩
  | some c =>
    simp only [hg] at h
    split at h
    · exact parse_braced_variable_ok h
    · split at h
      · exact parse_command_substitution_ok h
      · split at h
        · exact parse_simple_variable_ok hp h
        · obtain rfl : (Token.Literal (slice src p (p + 1)), p, p + 1) = r := by injection h
          dsimp only [TokOut]
          exact ⟨rfl, by omega, by omega, fun txt ht => by cases ht; rfl⟩

/-! ## `scan_next` facts -/

theorem okSomeInj {α : Type} {x y : α}
    (h : (Except.ok (some x) : Except Error (Option α)) = .ok (some y)) : x = y := by
  injection h with h1
  injection h1

/-- Every token emitted by one `scan_next` call satisfies `TokOut`: its
range starts at the entry cursor, is non-empty, ends inside the source, and
a `Literal` token carries exactly the source slice of its range. -/
theorem scanLoopF_ok_some {src : List Char} :
    ∀ (fuel start current : Nat) (t : Token) (s e : Nat),
      start ≤ current →
      scanLoopF src fuel start current = .ok (some (t, s, e)) →
      TokOut src start (t, s, e) := by
  intro fuel
  induction fuel with
  | zero => intro start current t s e _ h; simp [scanLoopF] at h
  | succ n ih =>
    intro start current t s e hsc h
    unfold scanLoopF at h
    split at h
    case isTrue hcur =>
      cases hf : findFrom isSpecialChar src current with
      | none =>
        simp only [hf] at h
        split at h
        case isTrue hstart =>
          cases okSomeInj h
          dsimp only [TokOut]
          exact ⟨rfl, hstart, le_refl _, fun txt ht => by cases ht; rfl⟩
        case isFalse =>
          injection h with h1
          exact Option.noConfusion h1
      | some p =>
        simp only [hf] at h
        obtain ⟨hp1, hp2, c, hc, hpc⟩ := findFrom_some hf
        simp only [hc] at h
        split at h
        case isTrue =>
          -- backslash: skip and continue
          have hle : start ≤ (if p + 1 < src.length then p + 2 else src.length) := by
            split <;> omega
          exact ih start _ t s e hle h
        case isFalse =>
          split at h
          case isTrue =>
            -- single quote: absorb the block and continue
            cases hq : quoteScan src (p + 1) with
            | some r =>
              simp only [hq] at h
              obtain ⟨hr1, hr2⟩ := quoteScan_some hq
              exact ih start r t s e (by omega) h
            | none =>
              simp only [hq] at h
              exact ih start src.length t s e (by omega) h
          case isFalse =>
            split at h
            case isTrue =>
              -- dollar
              split at h
              case isTrue hsp =>
                cases okSomeInj h
                dsimp only [TokOut]
                exact ⟨rfl, hsp, by omega, fun txt ht => by cases ht; rfl⟩
              case isFalse hsp =>
                have hstart : start = p := by omega
                subst hstart
                cases hpv : parse_variable src start with
                | error er => simp only [hpv] at h; exact Except.noConfusion h
                | ok r =>
                  simp only [hpv] at h
                  cases okSomeInj h
                  exact parse_variable_ok hp2 hpv
            case isFalse =>
              -- backtick
              split at h
              case isTrue hsp =>
                cases okSomeInj h
                dsimp only [TokOut]
                exact ⟨rfl, hsp, by omega, fun txt ht => by cases ht; rfl⟩
              case isFalse hsp =>
                have hstart : start = p := by omega
                subst hstart
                cases hpb : parse_backtick_command src start with
                | error er => simp only [hpb] at h; exact Except.noConfusion h
                | ok r =>
                  simp only [hpb] at h
                  cases okSomeInj h
                  exact parse_backtick_command_ok hpb
    case isFalse hcur =>
      split at h
      case isTrue hstart =>
        cases okSomeInj h
        dsimp only [TokOut]
        exact ⟨rfl, hstart, le_refl _, fun txt ht => by cases ht; rfl⟩
      case isFalse =>
        injection h with h1
        exact Option.noConfusion h1

/-- With fuel larger than the remaining span, the scan loop never reports
"no token" while the entry position is still inside the source. -/
theorem scanLoopF_progress {src : List Char} :
    ∀ (fuel start current : Nat),
      start ≤ current → current ≤ src.length → start < src.length →
      src.length - current < fuel →
      scanLoopF src fuel start current ≠ .ok none := by
  intro fuel
  induction fuel with
  | zero => intro start current _ _ _ hfuel; omega
  | succ n ih =>
    intro start current hsc hclen hslen hfuel h
    unfold scanLoopF at h
    split at h
    case isTrue hcur =>
      cases hf : findFrom isSpecialChar src current with
      | none =>
        simp only [hf] at h
        -- hslen resolves the start < length test: the loop emits the final
        -- literal token, contradicting the assumed .ok none
        injection h with h1
        exact Option.noConfusion h1
      | some p =>
        simp only [hf] at h
        obtain ⟨hp1, hp2, c, hc, hpc⟩ := findFrom_some hf
        simp only [hc] at h
        split at h
        case isTrue =>
          refine ih start _ ?_ ?_ hslen ?_ h
          · split <;> omega
          · split <;> omega
          · split <;> omega
        case isFalse =>
          split at h
          case isTrue =>
            cases hq : quoteScan src (p + 1) with
            | some r =>
              simp only [hq] at h
              obtain ⟨hr1, hr2⟩ := quoteScan_some hq
              exact ih start r (by omega) (by omega) hslen (by omega) h
            | none =>
              simp only [hq] at h
              exact ih start src.length (by omega) (by omega) hslen (by omega) h
          case isFalse =>
            split at h
            case isTrue =>
              split at h
              case isTrue => exact absurd h (by simp)
              case isFalse =>
                cases hpv : parse_variable src p with
                | error er => simp only [hpv] at h; exact Except.noConfusion h
                | ok r => simp only [hpv] at h; exact absurd h (by simp)
            case isFalse =>
              split at h
              case isTrue => exact absurd h (by simp)
              case isFalse =>
                cases hpb : parse_backtick_command src p with
                | error er => simp only [hpb] at h; exact Except.noConfusion h
                | ok r => simp only [hpb] at h; exact absurd h (by simp)
    case isFalse hcur =>
      injection h with h1
      exact Option.noConfusion h1

/-- Model of `scan_next` returns "no token" exactly when the cursor has reached the
end of the input (src/scanner.rs lines 33-35 together with loop progress). -/
theorem scan_next_none_iff {src : List Char} {i : Nat} :
    scan_next src i = .ok none ↔ src.length ≤ i := by
  constructor
  · intro h
    by_contra hlt
    push_neg at hlt
    unfold scan_next at h
    rw [if_neg (by omega)] at h
    exact scanLoopF_progress (src.length + 1) i i (le_refl i) (by omega) (by omega)
      (by omega) h
  · intro h
    unfold scan_next
    rw [if_pos h]

/-- Every token returned by `scan_next` at cursor `i` starts at `i`, covers
a non-empty range ending inside the source, and a `Literal` token's text is
the source slice of its range. -/
theorem scan_next_ok_some {src : List Char} {i : Nat} {t : Token} {s e : Nat}
    (h : scan_next src i = .ok (some (t, s, e))) :
    s = i ∧ i < e ∧ e ≤ src.length ∧
      (∀ txt, t = Token.Literal txt → txt = slice src s e) := by
  unfold scan_next at h
  by_cases hi : src.length ≤ i
  · rw [if_pos hi] at h
    injection h with h1
    exact Option.noConfusion h1
  · rw [if_neg hi] at h
    exact scanLoopF_ok_some (src.length + 1) i i t s e (le_refl i) h

/-! ## Token ranges partition the input -/

/-- The ranges of a token list partition `src` from position `i` to the
end: each range starts where the previous ended, no range is empty, and the
last one ends at the input length. -/
def partitionFrom (src : List Char) : Nat → List (Token × Nat × Nat) → Prop
  | i, [] => i = src.length
  | i, (_, s, e) :: rest => s = i ∧ i < e ∧ e ≤ src.length ∧ partitionFrom src e rest

/-- The concatenation of the source text of the token ranges. -/
def sliceConcat (src : List Char) (toks : List (Token × Nat × Nat)) : List Char :=
  toks.foldr (fun r acc => slice src r.2.1 r.2.2 ++ acc) []

theorem scanAllF_partition {src : List Char} :
    ∀ (gas i : Nat) (toks : List (Token × Nat × Nat)),
      src.length - i < gas → i ≤ src.length →
      scanAllF src gas i = .ok toks → partitionFrom src i toks := by
  intro gas
  induction gas with
  | zero => intro i toks hgas _ _; omega
  | succ n ih =>
    intro i toks hgas hle h
    unfold scanAllF at h
    cases hs : scan_next src i with
    | error e => simp only [hs] at h; exact Except.noConfusion h
    | ok o =>
      cases o with
      | none =>
        simp only [hs] at h
        obtain rfl : ([] : List (Token × Nat × Nat)) = toks := by injection h
        have hend := scan_next_none_iff.mp hs
        show i = src.length
        omega
      | some r =>
        obtain ⟨t, s, e⟩ := r
        simp only [hs] at h
        obtain ⟨h1, h2, h3, _⟩ := scan_next_ok_some hs
        cases hrest : scanAllF src n e with
        | error er => simp only [hrest] at h; exact Except.noConfusion h
        | ok rest =>
          simp only [hrest] at h
          obtain rfl : (t, s, e) :: rest = toks := by injection h
          exact ⟨h1, h2, h3, ih e rest (by omega) h3 hrest⟩

theorem partitionFrom_concat {src : List Char} :
    ∀ (toks : List (Token × Nat × Nat)) (i : Nat),
      partitionFrom src i toks → sliceConcat src toks = src.drop i := by
  intro toks
  induction toks with
  | nil =>
    intro i h
    have : i = src.length := h
    simp [sliceConcat, this]
  | cons r rest ih =>
    obtain ⟨t, s, e⟩ := r
    intro i h
    obtain ⟨rfl, h2, h3, h4⟩ := h
    have hrest := ih e h4
    show slice src s e ++ sliceConcat src rest = src.drop s
    rw [hrest]
    unfold slice
    have hd : src.drop e = (src.drop s).drop (e - s) := by
      rw [List.drop_drop]
      congr 1
      omega
    rw [hd, List.take_append_drop]

/-- If the whole scan succeeds, the lazily collected prefix equals the full
token list. -/
theorem scanPrefixF_eq_of_scanAllF {src : List Char} :
    ∀ (gas i : Nat) (toks : List (Token × Nat × Nat)),
      scanAllF src gas i = .ok toks → scanPrefixF src gas i = toks := by
  intro gas
  induction gas with
  | zero =>
    intro i toks h
    obtain rfl : ([] : List (Token × Nat × Nat)) = toks := by injection h
    rfl
  | succ n ih =>
    intro i toks h
    unfold scanAllF at h
    unfold scanPrefixF
    cases hs : scan_next src i with
    | error e => simp only [hs] at h; exact Except.noConfusion h
    | ok o =>
      cases o with
      | none =>
        simp only [hs] at h
        obtain rfl : ([] : List (Token × Nat × Nat)) = toks := by injection h
        rfl
      | some r =>
        obtain ⟨t, s, e⟩ := r
        simp only [hs] at h
        cases hrest : scanAllF src n e with
        | error er => simp only [hrest] at h; exact Except.noConfusion h
        | ok rest =>
          simp only [hrest] at h
          obtain rfl : (t, s, e) :: rest = toks := by injection h
          simp only [ih e rest hrest]

/-! ## Order lemmas for the extractor's sort -/

theorem nameLe_total : ∀ (a b : List Char), nameLe a b = true ∨ nameLe b a = true := by
  intro a
  induction a with
  | nil => intro b; left; rfl
  | cons x xs ih =>
    intro b
    cases b with
    | nil => right; rfl
    | cons y ys =>
      by_cases hxy : x < y
      · left; simp [nameLe, hxy]
      · by_cases hyx : y < x
        · right; simp [nameLe, hyx]
        · have hxy2 : x = y := le_antisymm (not_lt.mp hyx) (not_lt.mp hxy)
          subst hxy2
          cases ih ys with
          | inl h => left; simpa [nameLe, lt_irrefl] using h
          | inr h => right; simpa [nameLe, lt_irrefl] using h

theorem nameLe_trans :
    ∀ (a b c : List Char), nameLe a b = true → nameLe b c = true → nameLe a c = true := by
  intro a
  induction a with
  | nil => intro b c _ _; rfl
  | cons x xs ih =>
    intro b c hab hbc
    cases b with
    | nil => simp [nameLe] at hab
    | cons y ys =>
      cases c with
      | nil => simp [nameLe] at hbc
      | cons z zs =>
        by_cases h1 : x < y
        · by_cases h2 : y < z
          · simp [nameLe, lt_trans h1 h2]
          · by_cases h3 : z < y
            · simp [nameLe, h2, h3] at hbc
            · have hyz : y = z := le_antisymm (not_lt.mp h3) (not_lt.mp h2)
              subst hyz
              simp [nameLe, h1]
        · by_cases h1b : y < x
          · simp [nameLe, h1, h1b] at hab
          · have hxy : x = y := le_antisymm (not_lt.mp h1b) (not_lt.mp h1)
            subst hxy
            have hab2 : nameLe xs ys = true := by
              simpa [nameLe, lt_irrefl] using hab
            by_cases h2 : x < z
            · simp [nameLe, h2]
            · by_cases h3 : z < x
              · simp [nameLe, h2, h3] at hbc
              · have hxz : x = z := le_antisymm (not_lt.mp h3) (not_lt.mp h2)
                subst hxz
                have hbc2 : nameLe ys zs = true := by
                  simpa [nameLe, lt_irrefl] using hbc
                simpa [nameLe, lt_irrefl] using ih ys zs hab2 hbc2

instance : IsTotal (List Char) nameLeProp := ⟨nameLe_total⟩

instance : IsTrans (List Char) nameLeProp := ⟨fun a b c => nameLe_trans a b c⟩

theorem sortNames_sorted (l : List (List Char)) :
    List.Sorted nameLeProp (sortNames l) :=
  List.sorted_insertionSort nameLeProp l

theorem sortNames_perm (l : List (List Char)) : (sortNames l).Perm l :=
  List.perm_insertionSort nameLeProp l

/-! ## The collection loop of `find_variable_references` -/

theorem insertIfAbsent_mem (acc : List (List Char)) (nm n : List Char) :
    n ∈ insertIfAbsent acc nm ↔ n = nm ∨ n ∈ acc := by
  unfold insertIfAbsent
  split
  case isTrue hc =>
    have hmem : nm ∈ acc := by
      have := List.elem_iff.mp hc
      simpa using this
    constructor
    · intro h; exact Or.inr h
    · rintro (rfl | h)
      · exact hmem
      · exact h
  case isFalse =>
    simp [or_comm]

theorem insertIfAbsent_nodup {acc : List (List Char)} {nm : List Char}
    (h : acc.Nodup) : (insertIfAbsent acc nm).Nodup := by
  unfold insertIfAbsent
  split
  case isTrue => exact h
  case isFalse hc =>
    have hnm : nm ∉ acc := by
      intro hmem
      exact hc (by simpa using List.elem_iff.mpr hmem)
    rw [List.nodup_append]
    exact ⟨h, List.nodup_singleton nm, by simpa [List.Disjoint] using fun a ha hb => hnm (by simpa [hb] using ha)⟩

theorem fvrLoopF_nodup {src : List Char} :
    ∀ (gas i : Nat) (acc : List (List Char)), acc.Nodup → (fvrLoopF src gas i acc).Nodup := by
  intro gas
  induction gas with
  | zero => intro i acc h; exact h
  | succ n ih =>
    intro i acc h
    unfold fvrLoopF
    cases hs : scan_next src i with
    | error e => exact h
    | ok o =>
      cases o with
      | none => exact h
      | some r =>
        obtain ⟨t, s, e⟩ := r
        cases t with
        | Literal txt => exact ih e acc h
        | Variable nm d st co => exact ih e _ (insertIfAbsent_nodup h)
        | Command txt => exact ih e acc h
        | BacktickCommand txt => exact ih e acc h

/-- A name comes out of the collection loop exactly when it was already in
the accumulator or a `Variable` token with that name is scanned before the
loop stops. -/
theorem fvrLoopF_mem {src : List Char} :
    ∀ (gas i : Nat) (acc : List (List Char)) (n : List Char),
      n ∈ fvrLoopF src gas i acc ↔
        n ∈ acc ∨ ∃ d st co s e,
          (Token.Variable n d st co, s, e) ∈ scanPrefixF src gas i := by
  intro gas
  induction gas with
  | zero => intro i acc n; simp [fvrLoopF, scanPrefixF]
  | succ g ih =>
    intro i acc n
    unfold fvrLoopF scanPrefixF
    cases hs : scan_next src i with
    | error e => simp
    | ok o =>
      cases o with
      | none => simp
      | some r =>
        obtain ⟨t, s, e⟩ := r
        cases t with
        | Literal txt =>
          simp only [ih, List.mem_cons]
          constructor
          · rintro (h | h)
            · exact Or.inl h
            · exact Or.inr (by obtain ⟨d, st, co, s2, e2, hm⟩ := h; exact ⟨d, st, co, s2, e2, Or.inr hm⟩)
          · rintro (h | ⟨d, st, co, s2, e2, (hm | hm)⟩)
            · exact Or.inl h
            · exact absurd hm (by simp)
            · exact Or.inr ⟨d, st, co, s2, e2, hm⟩
        | Variable nm d st co =>
          simp only [ih, insertIfAbsent_mem, List.mem_cons]
          constructor
          · rintro ((rfl | h) | h)
            · exact Or.inr ⟨d, st, co, s, e, Or.inl rfl⟩
            · exact Or.inl h
            · exact Or.inr (by obtain ⟨d2, st2, co2, s2, e2, hm⟩ := h; exact ⟨d2, st2, co2, s2, e2, Or.inr hm⟩)
          · rintro (h | ⟨d2, st2, co2, s2, e2, (hm | hm)⟩)
            · exact Or.inl (Or.inr h)
            · have h1 := congrArg Prod.fst hm
              simp only [Token.Variable.injEq] at h1
              exact Or.inl (Or.inl h1.1)
            · exact Or.inr ⟨d2, st2, co2, s2, e2, hm⟩
        | Command txt =>
          simp only [ih, List.mem_cons]
          constructor
          · rintro (h | h)
            · exact Or.inl h
            · exact Or.inr (by obtain ⟨d, st, co, s2, e2, hm⟩ := h; exact ⟨d, st, co, s2, e2, Or.inr hm⟩)
          · rintro (h | ⟨d, st, co, s2, e2, (hm | hm)⟩)
            · exact Or.inl h
            · exact absurd hm (by simp)
            · exact Or.inr ⟨d, st, co, s2, e2, hm⟩
        | BacktickCommand txt =>
          simp only [ih, List.mem_cons]
          constructor
          · rintro (h | h)
            · exact Or.inl h
            · exact Or.inr (by obtain ⟨d, st, co, s2, e2, hm⟩ := h; exact ⟨d, st, co, s2, e2, Or.inr hm⟩)
          · rintro (h | ⟨d, st, co, s2, e2, (hm | hm)⟩)
            · exact Or.inl h
            · exact absurd hm (by simp)
            · exact Or.inr ⟨d, st, co, s2, e2, hm⟩

/-! ## Small helpers about `contains`, slices and name runs -/

theorem contains_eq_false {l : List Char} {c : Char} (h : c ∉ l) :
    l.contains c = false := by
  by_contra hb
  rw [Bool.not_eq_false] at hb
  exact h (List.elem_iff.mp hb)

theorem mem_slice {src : List Char} {s e : Nat} {c : Char} (h : c ∈ slice src s e) :
    c ∈ src := by
  unfold slice at h
  exact List.mem_of_mem_drop (List.mem_of_mem_take h)

theorem take_append_slice {src : List Char} {s e : Nat} (hse : s ≤ e) :
    src.take s ++ slice src s e = src.take e := by
  unfold slice
  have he : e = s + (e - s) := by omega
  rw [he, List.take_add]
  congr 2
  omega

theorem slice_zero_length (src : List Char) :
    slice src 0 src.length = src := by
  simp [slice]

theorem slice_singleton {src : List Char} {i : Nat} {c : Char}
    (h : src[i]? = some c) : slice src i (i + 1) = [c] := by
  obtain ⟨hi, hg⟩ := List.getElem?_eq_some.mp h
  unfold slice
  rw [List.drop_eq_getElem_cons hi, hg]
  simp

theorem runLenAux_eq_takeWhile_length (p : Char → Bool) :
    ∀ (l : List Char), runLenAux p l = (l.takeWhile p).length := by
  intro l
  induction l with
  | nil => rfl
  | cons c rest ih =>
    by_cases hc : p c = true
    · simp [runLenAux, List.takeWhile_cons, hc, ih]
    · rw [Bool.not_eq_true] at hc
      simp [runLenAux, List.takeWhile_cons, hc]

theorem take_runLenAux_eq_takeWhile (p : Char → Bool) :
    ∀ (l : List Char), l.take (runLenAux p l) = l.takeWhile p := by
  intro l
  induction l with
  | nil => rfl
  | cons c rest ih =>
    by_cases hc : p c = true
    · simp [runLenAux, List.takeWhile_cons, hc, ih]
    · rw [Bool.not_eq_true] at hc
      simp [runLenAux, List.takeWhile_cons, hc]

theorem take_takeWhile_length (p : Char → Bool) (l : List Char) :
    l.take (l.takeWhile p).length = l.takeWhile p :=
  (List.prefix_iff_eq_take.mp (List.takeWhile_prefix p)).symm

/-! ## Pointwise evaluation helpers for `scan_next` -/

/-- When the loop cursor has reached the end, the pending literal from
`start` is emitted (src/scanner.rs lines 155-162). -/
theorem scanLoopF_emit_final {src : List Char} {fuel start : Nat}
    (h1 : 0 < fuel) (h2 : start < src.length) :
    scanLoopF src fuel start src.length =
      .ok (some (.Literal (slice src start src.length), start, src.length)) := by
  cases fuel with
  | zero => omega
  | succ n =>
    unfold scanLoopF
    rw [if_neg (lt_irrefl _), if_pos h2]

/-- A special-character-free input scans as one literal token covering the
whole input. -/
theorem scan_next_no_special {input : List Char} (hne : input ≠ [])
    (hs : ∀ c ∈ input, isSpecialChar c = false) :
    scan_next input 0 = .ok (some (.Literal input, 0, input.length)) := by
  have hlen : 0 < input.length := List.length_pos.mpr hne
  have hf : findFrom isSpecialChar input 0 = none := findFrom_none_intro 0 hs
  unfold scan_next
  rw [if_neg (by omega)]
  unfold scanLoopF
  rw [if_pos hlen, hf, if_pos hlen, slice_zero_length]

/-- Once the scanner reports the end, the loop finishes via
`resolveFinish`. -/
theorem resolveLoopF_end {ctx : Provider} {cfg : Config}
    {recur : List Char → Except Error Cow} {input : List Char}
    {fuel idx : Nat} {result : Option (List Char)} {lastPos : Nat}
    (h1 : 0 < fuel) (h2 : input.length ≤ idx) :
    resolveLoopF ctx cfg recur input fuel idx result lastPos =
      resolveFinish cfg input result lastPos := by
  cases fuel with
  | zero => omega
  | succ n =>
    unfold resolveLoopF
    rw [scan_next_none_iff.mpr h2]

/-! ## The resolver with the variables feature disabled (claim C9) -/

/-- Whether a token is a `Variable` placeholder. -/
def Token.isVar : Token → Bool
  | .Variable _ _ _ _ => true
  | .Literal _ => false
  | .Command _ => false
  | .BacktickCommand _ => false

/-- Whether some scanned token is a `Variable` placeholder. -/
def hasVarToken (toks : List (Token × Nat × Nat)) : Bool :=
  toks.any (fun r => r.1.isVar)

/-- With the variables feature disabled and a backslash-free input, the
token loop reproduces the input verbatim; it stays borrowed until the
first `Variable` token, which unconditionally switches to an owned buffer
(src/interpolator.rs lines 232-237) even though its text is then copied
unchanged (line 263). -/
theorem resolveLoopF_vars_disabled (ctx : Provider) {cfg : Config}
    (recur : List Char → Except Error Cow) {input : List Char}
    (hvar : cfg.features.vars = false) (hbs : backslashChar ∉ input) :
    ∀ (gas idx : Nat) (toks : List (Token × Nat × Nat)),
      input.length - idx < gas → idx ≤ input.length →
      scanAllF input gas idx = .ok toks →
      resolveLoopF ctx cfg recur input gas idx (some (input.take idx)) idx =
          .ok (.Owned input) ∧
      resolveLoopF ctx cfg recur input gas idx none idx =
        (if hasVarToken toks then .ok (.Owned input) else .ok (.Borrowed input)) := by
  intro gas
  induction gas with
  | zero => intro idx toks hgas _ _; omega
  | succ g ih =>
    intro idx toks hgas hidx hscan
    unfold scanAllF at hscan
    cases hs : scan_next input idx with
    | error e => simp only [hs] at hscan; exact Except.noConfusion hscan
    | ok o =>
      cases o with
      | none =>
        simp only [hs] at hscan
        obtain rfl : ([] : List (Token × Nat × Nat)) = toks := by injection hscan
        have hend : input.length ≤ idx := scan_next_none_iff.mp hs
        have hidx2 : idx = input.length := by omega
        subst hidx2
        constructor
        · rw [resolveLoopF_end (by omega) (le_refl _)]
          unfold resolveFinish
          simp [List.take_length]
        · rw [resolveLoopF_end (by omega) (le_refl _)]
          unfold resolveFinish
          simp [hasVarToken, contains_eq_false hbs, hbs]
      | some r =>
        obtain ⟨t, s, e⟩ := r
        simp only [hs] at hscan
        obtain ⟨hseq, hlt, hele, hlit⟩ := scan_next_ok_some hs
        subst hseq
        cases hrest : scanAllF input g e with
        | error er => simp only [hrest] at hscan; exact Except.noConfusion hscan
        | ok rest =>
          simp only [hrest] at hscan
          obtain rfl : (t, s, e) :: rest = toks := by injection hscan
          obtain ⟨ihA, ihB⟩ := ih e rest (by omega) hele hrest
          have hstep : input.take s ++ slice input s e = input.take e :=
            take_append_slice (by omega)
          constructor
          · unfold resolveLoopF
            simp only [hs]
            cases t with
            | Literal txt =>
              have htxt : txt = slice input s e := hlit txt rfl
              have hc : txt.contains backslashChar = false :=
                contains_eq_false (fun hm => hbs (mem_slice (htxt ▸ hm)))
              simp only [hc, Bool.and_false, Bool.false_eq_true, if_false]
              rw [htxt, hstep]
              exact ihA
            | Variable nm d st co =>
              simp only [hvar, Bool.false_eq_true, if_false]
              rw [hstep]
              exact ihA
            | Command txt =>
              rw [hstep]
              exact ihA
            | BacktickCommand txt =>
              rw [hstep]
              exact ihA
          · unfold resolveLoopF
            simp only [hs]
            cases t with
            | Literal txt =>
              have htxt : txt = slice input s e := hlit txt rfl
              have hc : txt.contains backslashChar = false :=
                contains_eq_false (fun hm => hbs (mem_slice (htxt ▸ hm)))
              have hv : hasVarToken ((Token.Literal txt, s, e) :: rest) = hasVarToken rest := by
                simp [hasVarToken, Token.isVar]
              simp only [hc, Bool.and_false, Bool.false_eq_true, if_false]
              rw [hv]
              exact ihB
            | Variable nm d st co =>
              have hv : hasVarToken ((Token.Variable nm d st co, s, e) :: rest) = true := by
                simp [hasVarToken, Token.isVar]
              simp only [hvar, Bool.false_eq_true, if_false]
              rw [hv, if_pos rfl, hstep]
              exact ihA
            | Command txt =>
              have hv : hasVarToken ((Token.Command txt, s, e) :: rest) = hasVarToken rest := by
                simp [hasVarToken, Token.isVar]
              rw [hv]
              exact ihB
            | BacktickCommand txt =>
              have hv : hasVarToken ((Token.BacktickCommand txt, s, e) :: rest) = hasVarToken rest := by
                simp [hasVarToken, Token.isVar]
              rw [hv]
              exact ihB

/-- Model of `maybe_restore_placeholders` is the identity when neither placeholder
code point occurs. -/
theorem maybe_restore_id {c : Cow}
    (h1 : ESCAPED_BACKTICK_PLACEHOLDER ∉ c.val)
    (h2 : ESCAPED_DOLLAR_PLACEHOLDER ∉ c.val) :
    maybe_restore_placeholders c = .ok c := by
  have e1 : c.val.contains ESCAPED_BACKTICK_PLACEHOLDER = false := contains_eq_false h1
  have e2 : c.val.contains ESCAPED_DOLLAR_PLACEHOLDER = false := contains_eq_false h2
  unfold maybe_restore_placeholders
  dsimp only
  split
  case isTrue hcond =>
    rw [e1, e2] at hcond
    simp at hcond
  case isFalse => rfl

/-! ## Concrete fixtures used by the claims -/

/-- The provider of the modifier matrix: `TEST_VAR="test_value"`,
`EMPTY_VAR=""`, everything else unset. -/
def ctxC1 : Provider := fun n =>
  if n = ("TEST_VAR".data) then some ("test_value".data)
  else if n = ("EMPTY_VAR".data) then some []
  else none

/-- The text `${LOOP}`, bound to `LOOP` and interpolated in claim C2. -/
def loopStr : List Char := "$\x7bLOOP\x7d".data

/-- A provider binding `LOOP` to `${LOOP}`. -/
def ctxLoop : Provider := fun n => if n = ("LOOP".data) then some loopStr else none

/-- The default configuration with the variables feature switched off. -/
def cfgNoVars : Config := ⟨10, false, ⟨false, true, true, true, true, true, true⟩⟩

/-! ## Claim C3 -/

/-- C3, counterexample: the one-character input U+0000 contains none of
`$`, `\`, `'`, `` ` ``, yet the synchronous interpolate does not return it
unchanged as a borrowed view — the placeholder-restoration pass
(src/interpolator.rs lines 76-85) rewrites it to a backtick in a fresh
allocation.  This refutes the claim as stated. -/
theorem C3_counterexample :
    interpolate (fun _ => none) defaultConfig [ESCAPED_BACKTICK_PLACEHOLDER] =
      .ok (.Owned [backtickChar]) := by decide

/-- C3 (amended): for every input containing none of the four characters
`$`, `\`, `'`, `` ` `` and neither of the placeholder code points
U+0000/U+0001, the synchronous interpolate — under every configuration and
provider — succeeds and returns the input unchanged as a borrowed
(allocation-free) view. -/
theorem C3_identity_no_special (ctx : Provider) (cfg : Config) (input : List Char)
    (hs : ∀ c ∈ input, isSpecialChar c = false ∧
      c ≠ ESCAPED_BACKTICK_PLACEHOLDER ∧ c ≠ ESCAPED_DOLLAR_PLACEHOLDER) :
    interpolate ctx cfg input = .ok (.Borrowed input) := by
  have hbs : backslashChar ∉ input := fun hm => absurd (hs _ hm).1 (by decide)
  have hcontains : input.contains backslashChar = false := contains_eq_false hbs
  have hresolve : resolve ctx cfg input 0 = .ok (.Borrowed input) := by
    unfold resolve
    rw [Nat.sub_zero]
    unfold resolveF
    by_cases hne : input = []
    · subst hne
      rw [resolveLoopF_end (by omega) (by simp)]
      unfold resolveFinish
      simp
    · have hlen : 0 < input.length := List.length_pos.mpr hne
      unfold resolveLoopF
      rw [scan_next_no_special hne (fun c hc => (hs c hc).1)]
      simp only [hcontains, Bool.and_false, Bool.false_eq_true, if_false]
      rw [resolveLoopF_end hlen (le_refl _)]
      unfold resolveFinish
      rw [hcontains]
      simp
  unfold interpolate
  rw [hresolve]
  exact maybe_restore_id (fun hm => (hs _ hm).2.1 rfl) (fun hm => (hs _ hm).2.2 rfl)

theorem C3_witness :
    (∀ c ∈ ("hello world".data), isSpecialChar c = false ∧
      c ≠ ESCAPED_BACKTICK_PLACEHOLDER ∧ c ≠ ESCAPED_DOLLAR_PLACEHOLDER) ∧
    interpolate (fun _ => none) defaultConfig ("hello world".data) =
      .ok (.Borrowed ("hello world".data)) :=
  ⟨by decide, C3_identity_no_special (fun _ => none) defaultConfig _ (by decide)⟩

/-! ## Claim C2 -/

/-- At every fuel level — that is, at every residual depth budget
`max_depth + 1 - depth` — resolving `${LOOP}` under a provider that binds
`LOOP` to `${LOOP}` ends in the recursive-lookup error: each nested
expansion burns one unit until the `depth > max_depth` check fires. -/
theorem resolveF_loop_self (ctx : Provider) (cfg : Config)
    (hb : ctx ("LOOP".data) = some loopStr) (hv : cfg.features.vars = true) :
    ∀ fuel, resolveF ctx cfg fuel loopStr = .error (.RecursiveLookup loopStr) := by
  intro fuel
  induction fuel with
  | zero => rfl
  | succ n ih =>
    have hscan : scan_next loopStr 0 =
        .ok (some (.Variable ("LOOP".data) none false false, 0, 7)) := by decide
    unfold resolveF resolveLoopF
    rw [hscan]
    simp only [hv, if_true]
    unfold resolve_variable
    rw [hb]
    simp only [Bool.false_and, Bool.and_false, Bool.false_eq_true, if_false,
      Bool.not_false, Bool.true_and, Bool.and_true]
    rw [ih]

/-- C2 (amended): with the variables feature enabled, for every provider
binding `LOOP` to `${LOOP}` and every `max_depth`, `interpolate("${LOOP}")`
terminates with the recursive-lookup error (the embedding is a total
function, so termination is inherent).  As stated the claim quantified over
*every* configuration; `C2_counterexample` shows it fails when the
variables feature is disabled. -/
theorem C2_recursive_lookup (ctx : Provider) (cfg : Config)
    (hb : ctx ("LOOP".data) = some loopStr) (hv : cfg.features.vars = true) :
    interpolate ctx cfg loopStr = .error (.RecursiveLookup loopStr) := by
  unfold interpolate
  have hres : resolve ctx cfg loopStr 0 = .error (.RecursiveLookup loopStr) := by
    unfold resolve
    exact resolveF_loop_self ctx cfg hb hv _
  rw [hres]

/-- C2, counterexample: under a configuration with `max_depth = 10 ≥ 0` but
the variables feature disabled, `interpolate("${LOOP}")` with `LOOP` bound
to `${LOOP}` returns the text unchanged instead of the recursive-lookup
error, refuting the claim's quantification over every configuration. -/
theorem C2_counterexample :
    interpolate ctxLoop cfgNoVars loopStr = .ok (.Owned loopStr) := by decide

theorem C2_witness :
    ctxLoop ("LOOP".data) = some loopStr ∧ defaultConfig.features.vars = true ∧
    interpolate ctxLoop defaultConfig loopStr = .error (.RecursiveLookup loopStr) :=
  ⟨by decide, rfl, C2_recursive_lookup ctxLoop defaultConfig (by decide) rfl⟩

/-! ## Claim C9 -/

/-- C9 (amended): with the variables feature disabled (and a backslash- and
placeholder-free input whose scan succeeds), every token — in particular
every `Variable` placeholder — passes through the synchronous interpolate
literally: the output is exactly the input.  The result is a borrowed view
while every token is a Literal (or Command/BacktickCommand, inert in the
synchronous pass); however a `Variable` token switches the call to an owned
buffer even though its feature is disabled (src/interpolator.rs lines
232-237), so the original claim's "borrowed view when the relevant feature
is disabled" fails — see `C9_counterexample`. -/
theorem C9_vars_disabled (ctx : Provider) (cfg : Config)
    (input : List Char) (toks : List (Token × Nat × Nat))
    (hvar : cfg.features.vars = false)
    (hbs : backslashChar ∉ input)
    (hq1 : ESCAPED_BACKTICK_PLACEHOLDER ∉ input)
    (hq2 : ESCAPED_DOLLAR_PLACEHOLDER ∉ input)
    (hscan : scanAll input = .ok toks) :
    interpolate ctx cfg input =
      .ok (if hasVarToken toks then Cow.Owned input else Cow.Borrowed input) := by
  have hloop := (resolveLoopF_vars_disabled ctx (resolveF ctx cfg cfg.max_depth)
    hvar hbs (input.length + 1) 0 toks (by omega) (by omega) hscan).2
  have hresolve : resolve ctx cfg input 0 =
      (if hasVarToken toks then Except.ok (Cow.Owned input) else .ok (.Borrowed input)) := by
    unfold resolve
    rw [Nat.sub_zero]
    unfold resolveF
    exact hloop
  unfold interpolate
  rw [hresolve]
  by_cases hv : hasVarToken toks = true
  · rw [if_pos hv, if_pos hv]
    exact maybe_restore_id hq1 hq2
  · rw [if_neg hv, if_neg hv]
    exact maybe_restore_id hq1 hq2

/-- C9, counterexample: with the variables feature disabled, interpolating
`${A}` passes the placeholder through literally but returns an *owned*
buffer, not the borrowed view the claim promises for disabled features. -/
theorem C9_counterexample :
    interpolate (fun _ => none) cfgNoVars ("$\x7bA\x7d".data) =
      .ok (.Owned ("$\x7bA\x7d".data)) := by decide

theorem C9_witness :
    interpolate (fun _ => none) cfgNoVars ("a$\x7bB\x7dc".data) =
      .ok (if hasVarToken [(Token.Literal ("a".data), 0, 1),
          (Token.Variable ("B".data) none false false, 1, 5),
          (Token.Literal ("c".data), 5, 6)]
        then Cow.Owned ("a$\x7bB\x7dc".data) else Cow.Borrowed ("a$\x7bB\x7dc".data)) :=
  C9_vars_disabled (fun _ => none) cfgNoVars _ _ rfl (by decide) (by decide) (by decide)
    (by decide)

/-! ## Claim C1 -/

/-- C1: with all features enabled (the default configuration) and the
provider `TEST_VAR="test_value"`, `EMPTY_VAR=""`, `MISSING` unset, the
synchronous interpolate maps each of the twelve modifier scenarios to
exactly the matrix output of the specification. -/
theorem C1_modifier_matrix :
    interpolate ctxC1 defaultConfig ("$\x7bTEST_VAR:-def\x7d".data) =
        .ok (.Owned ("test_value".data)) ∧
    interpolate ctxC1 defaultConfig ("$\x7bMISSING:-def\x7d".data) =
        .ok (.Owned ("def".data)) ∧
    interpolate ctxC1 defaultConfig ("$\x7bEMPTY_VAR:-def\x7d".data) =
        .ok (.Owned ("def".data)) ∧
    interpolate ctxC1 defaultConfig ("$\x7bTEST_VAR-def\x7d".data) =
        .ok (.Owned ("test_value".data)) ∧
    interpolate ctxC1 defaultConfig ("$\x7bMISSING-def\x7d".data) =
        .ok (.Owned ("def".data)) ∧
    interpolate ctxC1 defaultConfig ("$\x7bEMPTY_VAR-def\x7d".data) =
        .ok (.Owned []) ∧
    interpolate ctxC1 defaultConfig ("$\x7bTEST_VAR:+rep\x7d".data) =
        .ok (.Owned ("rep".data)) ∧
    interpolate ctxC1 defaultConfig ("$\x7bMISSING:+rep\x7d".data) =
        .ok (.Owned []) ∧
    interpolate ctxC1 defaultConfig ("$\x7bEMPTY_VAR:+rep\x7d".data) =
        .ok (.Owned []) ∧
    interpolate ctxC1 defaultConfig ("$\x7bTEST_VAR+rep\x7d".data) =
        .ok (.Owned ("rep".data)) ∧
    interpolate ctxC1 defaultConfig ("$\x7bMISSING+rep\x7d".data) =
        .ok (.Owned []) ∧
    interpolate ctxC1 defaultConfig ("$\x7bEMPTY_VAR+rep\x7d".data) =
        .ok (.Owned ("rep".data)) := by
  refine ⟨?_, ?_, ?_, ?_, ?_, ?_, ?_, ?_, ?_, ?_, ?_, ?_⟩ <;> decide

/-! ## Claim C4 -/

/-- C4: conditional replacement text is evaluated lazily.  With `MISSING`
unset, `${MISSING:+${ALSO_MISSING}}` succeeds with the empty string no
matter what the provider would say about `ALSO_MISSING` (the provider is
arbitrary beyond `MISSING`, so the inner name is observably never looked
up); with `SET_VAR` bound to any non-empty value and `ALSO_MISSING` unset,
`${SET_VAR:+${ALSO_MISSING}}` fails with the missing-variable error for
`ALSO_MISSING`. -/
theorem C4_lazy_conditional :
    (∀ ctx : Provider, ctx ("MISSING".data) = none →
      interpolate ctx defaultConfig ("$\x7bMISSING:+$\x7bALSO_MISSING\x7d\x7d".data) =
        .ok (.Owned [])) ∧
    (∀ (ctx : Provider) (v : List Char), ctx ("SET_VAR".data) = some v → v ≠ [] →
      ctx ("ALSO_MISSING".data) = none →
      interpolate ctx defaultConfig ("$\x7bSET_VAR:+$\x7bALSO_MISSING\x7d\x7d".data) =
        .error (.MissingVar ("ALSO_MISSING".data))) := by
  constructor
  · intro ctx hm
    have hrv : ∀ recur, resolve_variable ctx defaultConfig recur ("MISSING".data)
        (some ("$\x7bALSO_MISSING\x7d".data)) true true = .ok (.Borrowed []) := by
      intro recur
      unfold resolve_variable
      dsimp only
      rw [hm]
      rfl
    have hscan : scan_next ("$\x7bMISSING:+$\x7bALSO_MISSING\x7d\x7d".data) 0 =
        .ok (some (.Variable ("MISSING".data) (some ("$\x7bALSO_MISSING\x7d".data)) true true,
          0, 27)) := by decide
    unfold interpolate resolve
    rw [show defaultConfig.max_depth + 1 - 0 = 10 + 1 from rfl]
    unfold resolveF resolveLoopF
    rw [hscan]
    dsimp only
    rw [hrv]
    dsimp only
    rw [resolveLoopF_end (by decide) (by decide)]
    rfl
  · intro ctx v hsv hne ham
    have hrvInner : ∀ recur, resolve_variable ctx defaultConfig recur ("ALSO_MISSING".data)
        none false false = .error (.MissingVar ("ALSO_MISSING".data)) := by
      intro recur
      unfold resolve_variable
      dsimp only
      rw [ham]
      rfl
    have hscanInner : scan_next ("$\x7bALSO_MISSING\x7d".data) 0 =
        .ok (some (.Variable ("ALSO_MISSING".data) none false false, 0, 15)) := by decide
    have hinner : resolveF ctx defaultConfig 10 ("$\x7bALSO_MISSING\x7d".data) =
        .error (.MissingVar ("ALSO_MISSING".data)) := by
      rw [show (10 : Nat) = 9 + 1 from rfl]
      unfold resolveF resolveLoopF
      rw [hscanInner]
      dsimp only
      rw [hrvInner]
      rfl
    have hvempty : v.isEmpty = false := by
      cases v
      · exact absurd rfl hne
      · rfl
    have hrvOuter : resolve_variable ctx defaultConfig (resolveF ctx defaultConfig 10)
        ("SET_VAR".data) (some ("$\x7bALSO_MISSING\x7d".data)) true true =
        .error (.MissingVar ("ALSO_MISSING".data)) := by
      unfold resolve_variable
      dsimp only
      rw [hsv]
      try dsimp only
      rw [hvempty]
      exact hinner
    have hscan : scan_next ("$\x7bSET_VAR:+$\x7bALSO_MISSING\x7d\x7d".data) 0 =
        .ok (some (.Variable ("SET_VAR".data) (some ("$\x7bALSO_MISSING\x7d".data)) true true,
          0, 27)) := by decide
    unfold interpolate resolve
    rw [show defaultConfig.max_depth + 1 - 0 = 10 + 1 from rfl]
    unfold resolveF resolveLoopF
    rw [hscan]
    dsimp only
    rw [hrvOuter]
    rfl

theorem C4_witness :
    (fun n => if n = ("SET_VAR".data) then some ("yes".data) else none : Provider)
        ("MISSING".data) = none ∧
    interpolate (fun n => if n = ("SET_VAR".data) then some ("yes".data) else none)
        defaultConfig ("$\x7bMISSING:+$\x7bALSO_MISSING\x7d\x7d".data) = .ok (.Owned []) ∧
    interpolate (fun n => if n = ("SET_VAR".data) then some ("yes".data) else none)
        defaultConfig ("$\x7bSET_VAR:+$\x7bALSO_MISSING\x7d\x7d".data) =
      .error (.MissingVar ("ALSO_MISSING".data)) :=
  ⟨by decide,
   C4_lazy_conditional.1 _ (by decide),
   C4_lazy_conditional.2 _ ("yes".data) (by decide) (by decide) (by decide)⟩

/-! ## Claim C8 -/

/-- C8: whenever scanning the whole input succeeds, the returned byte
ranges partition the input exactly — the first starts at 0, each starts
where the previous ended, none is empty, the last ends at the input
length — and concatenating the source text of the ranges reconstructs the
input.  (Termination of the scan is inherent: the embedding is a total
function, justified by the progress lemmas.) -/
theorem C8_ranges_partition (src : List Char) (toks : List (Token × Nat × Nat))
    (h : scanAll src = .ok toks) :
    partitionFrom src 0 toks ∧ sliceConcat src toks = src := by
  have hp := scanAllF_partition (src.length + 1) 0 toks (by omega) (by omega) h
  refine ⟨hp, ?_⟩
  have hc := partitionFrom_concat toks 0 hp
  simpa using hc

theorem C8_witness :
    partitionFrom ("a$b".data) 0
      [(Token.Literal ("a".data), 0, 1), (Token.Variable ("b".data) none false false, 1, 3)] ∧
    sliceConcat ("a$b".data)
      [(Token.Literal ("a".data), 0, 1), (Token.Variable ("b".data) none false false, 1, 3)] =
      "a$b".data :=
  C8_ranges_partition ("a$b".data) _ (by decide)

/-! ## Claim C5 -/

/-- C5: for every input whose scan succeeds with token list `toks`,
`find_variable_references` needs no provider (it takes none) and returns a
lexicographically sorted, duplicate-free list whose members are exactly the
names of the `Variable` tokens among `toks` — names inside `Command` /
`BacktickCommand` spans, inside single-quoted spans (absorbed into
`Literal` tokens), or inside the default span of another variable never
form tokens of their own and so are excluded. -/
theorem C5_extract_references (src : List Char) (toks : List (Token × Nat × Nat))
    (hscan : scanAll src = .ok toks) :
    List.Sorted nameLeProp (find_variable_references src) ∧
    (find_variable_references src).Nodup ∧
    (∀ n, n ∈ find_variable_references src ↔
      ∃ d st co s e, (Token.Variable n d st co, s, e) ∈ toks) := by
  have hperm := sortNames_perm (fvrLoopF src (src.length + 1) 0 [])
  refine ⟨sortNames_sorted _, ?_, ?_⟩
  · exact (hperm.nodup_iff).mpr (fvrLoopF_nodup (src.length + 1) 0 [] List.nodup_nil)
  · intro n
    show n ∈ sortNames (fvrLoopF src (src.length + 1) 0 []) ↔ _
    rw [hperm.mem_iff, fvrLoopF_mem]
    rw [scanPrefixF_eq_of_scanAllF (src.length + 1) 0 toks hscan]
    simp only [List.not_mem_nil, false_or]

/-- The scan of the C5 witness input: a single-quoted `$A`, a command span
`$(echo $B)`, a backtick span containing `$C`, a default span `$E`, and the
top-level variables `D`, `F`, `G`. -/
def inp5 : List Char :=
  "\x27$A\x27 $(echo $B) \x60x $C\x60 $\x7bD:-$E\x7d $F $\x7bG\x7d".data

def toks5 : List (Token × Nat × Nat) :=
  [(Token.Literal ("\x27$A\x27 ".data), 0, 5),
   (Token.Command ("echo $B".data), 5, 15),
   (Token.Literal (" ".data), 15, 16),
   (Token.BacktickCommand ("x $C".data), 16, 22),
   (Token.Literal (" ".data), 22, 23),
   (Token.Variable ("D".data) (some ("$E".data)) true false, 23, 31),
   (Token.Literal (" ".data), 31, 32),
   (Token.Variable ("F".data) none false false, 32, 34),
   (Token.Literal (" ".data), 34, 35),
   (Token.Variable ("G".data) none false false, 35, 39)]

theorem C5_witness :
    List.Sorted nameLeProp (find_variable_references inp5) ∧
    (find_variable_references inp5).Nodup ∧
    (("D".data ∈ find_variable_references inp5) ↔
      ∃ d st co s e, (Token.Variable ("D".data) d st co, s, e) ∈ toks5) ∧
    (("B".data ∈ find_variable_references inp5) ↔
      ∃ d st co s e, (Token.Variable ("B".data) d st co, s, e) ∈ toks5) :=
  ⟨(C5_extract_references inp5 toks5 (by decide)).1,
   (C5_extract_references inp5 toks5 (by decide)).2.1,
   (C5_extract_references inp5 toks5 (by decide)).2.2 ("D".data),
   (C5_extract_references inp5 toks5 (by decide)).2.2 ("B".data)⟩

/-! ## Claim C10 -/

/-- C10: on every input where the scanner reports an error partway
through, `find_variable_references` still returns normally — it is a total
function surfacing no error — and yields the sorted, deduplicated names of
exactly the `Variable` tokens scanned before the error (the prefix the
`while let Ok(Some(..))` loop of src/lib.rs lines 80-85 consumed). -/
theorem C10_references_on_error (src : List Char) (er : Error)
    (hscan : scanAll src = .error er) :
    List.Sorted nameLeProp (find_variable_references src) ∧
    (find_variable_references src).Nodup ∧
    (∀ n, n ∈ find_variable_references src ↔
      ∃ d st co s e, (Token.Variable n d st co, s, e) ∈ scanPrefix src) := by
  have hperm := sortNames_perm (fvrLoopF src (src.length + 1) 0 [])
  refine ⟨sortNames_sorted _, ?_, ?_⟩
  · exact (hperm.nodup_iff).mpr (fvrLoopF_nodup (src.length + 1) 0 [] List.nodup_nil)
  · intro n
    show n ∈ sortNames (fvrLoopF src (src.length + 1) 0 []) ↔ _
    rw [hperm.mem_iff, fvrLoopF_mem]
    simp only [List.not_mem_nil, false_or]
    rfl

theorem C10_witness :
    List.Sorted nameLeProp (find_variable_references ("$\x7bA\x7d $\x7bB".data)) ∧
    (find_variable_references ("$\x7bA\x7d $\x7bB".data)).Nodup ∧
    (("A".data ∈ find_variable_references ("$\x7bA\x7d $\x7bB".data)) ↔
      ∃ d st co s e, (Token.Variable ("A".data) d st co, s, e) ∈
        scanPrefix ("$\x7bA\x7d $\x7bB".data)) :=
  ⟨(C10_references_on_error _ (.UnclosedBrace 5) (by decide)).1,
   (C10_references_on_error _ (.UnclosedBrace 5) (by decide)).2.1,
   (C10_references_on_error _ (.UnclosedBrace 5) (by decide)).2.2 ("A".data)⟩

/-! ## Claim C6 -/

/-- C6, counterexample: an unterminated single quote is not an error — the
scanner absorbs the whole unterminated span into a Literal token running to
the end of the input, never producing the unclosed-quote error the claim
requires (src/scanner.rs lines 103-105; `Error::UnclosedQuote` is in fact
never constructed by the scanner). -/
theorem C6_counterexample :
    scan_next ("\x27abc".data) 0 =
      .ok (some (.Literal ("\x27abc".data), 0, 4)) := by decide

/-- C6 (amended): an unmatched `${` fails with the unclosed-brace error
carrying the offset of its `$`; an unterminated backtick command fails with
the unclosed-backtick syntax error carrying the offset of the opening
backtick; but an unterminated single quote is not an error — the quoted
span is absorbed into a Literal token extending to the end of the input. -/
theorem C6_unclosed_delimiters (src : List Char) (i : Nat) :
    (src[i]? = some '$' → src[i+1]? = some (Char.ofNat 123) →
      findCloseBrace src (i + 2) = none →
      scan_next src i = .error (.UnclosedBrace i)) ∧
    (src[i]? = some backtickChar → backtickScan src (i + 1) = none →
      scan_next src i = .error (.SyntaxError
        ("Unclosed backtick command starting at " ++ Nat.repr i) i)) ∧
    (src[i]? = some quoteChar → quoteScan src (i + 1) = none →
      scan_next src i = .ok (some (.Literal (slice src i src.length), i, src.length))) := by
  refine ⟨?_, ?_, ?_⟩
  · intro hg hg2 hnc
    have hi : i < src.length := (List.getElem?_eq_some.mp hg).1
    have hf : findFrom isSpecialChar src i = some i := findFrom_self hg (by decide)
    unfold scan_next
    rw [if_neg (by omega)]
    unfold scanLoopF
    rw [if_pos hi]
    simp [hf, hg, parse_variable, hg2, parse_braced_variable, hnc, lt_irrefl,
      backslashChar, quoteChar]
  · intro hg hb
    have hi : i < src.length := (List.getElem?_eq_some.mp hg).1
    have hf : findFrom isSpecialChar src i = some i := findFrom_self hg (by decide)
    unfold scan_next
    rw [if_neg (by omega)]
    unfold scanLoopF
    rw [if_pos hi]
    simp [hf, hg, parse_backtick_command, hb, lt_irrefl, backslashChar, quoteChar,
      backtickChar]
  · intro hg hq
    have hi : i < src.length := (List.getElem?_eq_some.mp hg).1
    have hf : findFrom isSpecialChar src i = some i := findFrom_self hg (by decide)
    unfold scan_next
    rw [if_neg (by omega)]
    unfold scanLoopF
    rw [if_pos hi]
    simp only [hf, hg, hq]
    rw [if_pos trivial]
    exact scanLoopF_emit_final (by omega) hi

theorem C6_witness :
    scan_next ("$\x7b".data) 0 = .error (.UnclosedBrace 0) ∧
    scan_next ("\x60x".data) 0 = .error (.SyntaxError
      ("Unclosed backtick command starting at " ++ Nat.repr 0) 0) ∧
    scan_next ("\x27ab".data) 0 =
      .ok (some (.Literal (slice ("\x27ab".data) 0 ("\x27ab".data).length), 0,
        ("\x27ab".data).length)) :=
  ⟨(C6_unclosed_delimiters ("$\x7b".data) 0).1 (by decide) (by decide) (by decide),
   (C6_unclosed_delimiters ("\x60x".data) 0).2.1 (by decide) (by decide),
   (C6_unclosed_delimiters ("\x27ab".data) 0).2.2 (by decide) (by decide)⟩

/-! ## Claim C7 -/

/-- C7, counterexample: two concrete inputs refute the claim as stated.
First, when the scanner meets `$` whose next character is `{` — not an
ASCII letter or `_` — the claim requires the `$` to be emitted as a
one-character Literal and "never an error", but on the input `${` the
scanner returns the unclosed-brace error.  Second, when the next character
is U+03B1 (Greek small alpha, alphabetic in Unicode but not an ASCII
letter), the claim again requires a one-character Literal, but the scanner
emits a simple Variable token named by that character — the dispatch at
src/scanner.rs line 177 is Rust `char::is_alphabetic` (the Unicode
Alphabetic property), not "ASCII letter". -/
theorem C7_counterexample :
    scan_next ("$\x7b".data) 0 = .error (.UnclosedBrace 0) ∧
    scan_next ('$' :: [Char.ofNat 945]) 0 =
      .ok (some (.Variable [Char.ofNat 945] none false false, 0, 2)) :=
  ⟨by decide, by decide⟩

/-- C7 (amended): when the scanner meets `$` and the next character is
neither `{` nor `(`: it emits a simple Variable token (no default,
`strict=false`, `conditional=false`) exactly when that character is
alphabetic (per Rust `char::is_alphabetic`, not merely ASCII) or `_`, the
name being the longest following run of alphanumeric/`_` characters; for
every other next character, including end of input, the `$` is emitted as a
one-character Literal token and is never an error. -/
theorem C7_dollar_dispatch (src : List Char) (i : Nat)
    (hg : src[i]? = some '$') :
    (∀ c, src[i+1]? = some c → c ≠ Char.ofNat 123 → c ≠ '(' →
      (isSimpleVarStart c = true →
        scan_next src i = .ok (some (.Variable ((src.drop (i+1)).takeWhile isVarChar)
          none false false, i, i + 1 + ((src.drop (i+1)).takeWhile isVarChar).length))) ∧
      (isSimpleVarStart c = false →
        scan_next src i = .ok (some (.Literal ['$'], i, i + 1)))) ∧
    (src[i+1]? = none → scan_next src i = .ok (some (.Literal ['$'], i, i + 1))) := by
  have hi : i < src.length := (List.getElem?_eq_some.mp hg).1
  have hf : findFrom isSpecialChar src i = some i := findFrom_self hg (by decide)
  have hsingle : slice src i (i + 1) = ['$'] := slice_singleton hg
  constructor
  · intro c hc2 h123 hparen
    constructor
    · intro hsv
      unfold scan_next
      rw [if_neg (by omega)]
      unfold scanLoopF
      rw [if_pos hi]
      simp [hf, hg, parse_variable, hc2, h123, hparen, hsv, parse_simple_variable,
        lt_irrefl, backslashChar, quoteChar, slice, Nat.add_sub_cancel_left,
        take_runLenAux_eq_takeWhile, runLenAux_eq_takeWhile_length,
        take_takeWhile_length]
    · intro hsv
      unfold scan_next
      rw [if_neg (by omega)]
      unfold scanLoopF
      rw [if_pos hi]
      simp [hf, hg, parse_variable, hc2, h123, hparen, hsv, lt_irrefl,
        backslashChar, quoteChar, hsingle]
  · intro hnone
    unfold scan_next
    rw [if_neg (by omega)]
    unfold scanLoopF
    rw [if_pos hi]
    simp [hf, hg, parse_variable, hnone, lt_irrefl, backslashChar, quoteChar, hsingle]

theorem C7_witness :
    scan_next ("$a1_b-".data) 0 =
      .ok (some (.Variable (("a1_b-".data).takeWhile isVarChar) none false false,
        0, 0 + 1 + (("a1_b-".data).takeWhile isVarChar).length)) ∧
    scan_next ('$' :: [Char.ofNat 945]) 0 =
      .ok (some (.Variable (([Char.ofNat 945]).takeWhile isVarChar) none false false,
        0, 0 + 1 + (([Char.ofNat 945]).takeWhile isVarChar).length)) ∧
    scan_next ("$ x".data) 0 = .ok (some (.Literal ['$'], 0, 0 + 1)) ∧
    scan_next ("$".data) 0 = .ok (some (.Literal ['$'], 0, 0 + 1)) :=
  ⟨((C7_dollar_dispatch ("$a1_b-".data) 0 (by decide)).1 'a' (by decide) (by decide)
      (by decide)).1 (by decide),
   ((C7_dollar_dispatch ('$' :: [Char.ofNat 945]) 0 (by decide)).1 (Char.ofNat 945)
      (by decide) (by decide) (by decide)).1 (by decide),
   ((C7_dollar_dispatch ("$ x".data) 0 (by decide)).1 ' ' (by decide) (by decide)
      (by decide)).2 (by decide),
   (C7_dollar_dispatch ("$".data) 0 (by decide)).2 (by decide)⟩

end Germi
